import Mathlib

/-!
Verification of the Axo interpreter core (src/src/interpreter.cpp, richer
variant at lines 1-2795, with headers in src/unnamed/part_000 and the loop
fast path in src/unnamed/part_009).  All definitions are shallow embeddings
of the C++ source; the source line numbers are given next to each
definition.  C++ machine integers are modelled as unbounded Int except where
a bound is semantically load-bearing (std::stoi range checking), because no
settled claim exercises i32 overflow.
-/

namespace Axo

/-- Value domain (part_000 lines 26-45).  `vInt`/`vFloat`/`vStr`/`vBool`
are the scalar variants; `vArr`/`vObj` model `std::shared_ptr<ArrayValue>` /
`ObjectValue` by value, since no settled claim depends on reference
aliasing; `vFuncRef`/`vFuncExpr` model the two raw function-pointer
variants as indices into the interpreter function table.  `vFloat` carries
the exact rational parsed by the stof model; float formatting and rounding
are outside every settled claim, so the payload is never printed. -/
inductive Value where
  | vInt (n : Int)
  | vFloat (q : Rat)
  | vStr (s : String)
  | vBool (b : Bool)
  | vArr (elems : List Value)
  | vObj (fields : List (String × Value))
  | vFuncRef (idx : Nat)
  | vFuncExpr (idx : Nat)

/-- Variable record (part_000 lines 47-54). -/
structure Variable where
  value : Value
  type : String
  isConst : Bool

/-- Open-brace character, written by code point to keep brace characters out
of string literals. -/
def lbraceC : Char := Char.ofNat 123

/-- Close-brace character. -/
def rbraceC : Char := Char.ofNat 125

/-- Whitespace set used by the helper `trim` (interpreter.cpp line 25):
space, tab, newline, carriage return. -/
def isTrimSpace (c : Char) : Bool :=
  c = ' ' || c = '\t' || c = '\n' || c = '\r'

/-- Helper `trim` (interpreter.cpp lines 24-29): strip leading and trailing
characters from the set space, tab, newline, carriage return. -/
def trimAxo (s : String) : String :=
  ⟨((s.data.dropWhile isTrimSpace).reverse.dropWhile isTrimSpace).reverse⟩

/-- Character membership in a string, modelling `s.find(c) != npos`. -/
def containsChar (s : String) (c : Char) : Bool :=
  s.data.contains c

/-- Split a character list at every occurrence of a character, keeping empty
pieces, as the loops at interpreter.cpp lines 32-42 and 69-78 do. -/
def splitCharList (sep : Char) : List Char → List (List Char)
  | [] => [[]]
  | c :: cs =>
    if c = sep then [] :: splitCharList sep cs
    else
      match splitCharList sep cs with
      | [] => [[c]]
      | p :: ps => (c :: p) :: ps

/-- Function `splitUnion` (interpreter.cpp lines 32-42): split at every
bar character, with no nesting awareness, trimming each piece. -/
def splitUnion (s : String) : List String :=
  (splitCharList '|' s.data).map (fun l => trimAxo ⟨l⟩)

/-- Bracketed-form test `t.size() >= 2 && t.front() == o && t.back() == c`
(interpreter.cpp lines 63 and 94). -/
def isBracketForm (l : List Char) (o c : Char) : Bool :=
  l.length ≥ 2 && l.head? = some o && l.getLast? = some c

/-- C-locale `isspace` set used by `std::stoi` / `std::stof`. -/
def isCSpace (c : Char) : Bool :=
  c = ' ' || c = '\t' || c = '\n' || c = '\r' || c = Char.ofNat 11 || c = Char.ofNat 12

/-- Decimal digit run to a natural number. -/
def digitsToNat (l : List Char) : Nat :=
  l.foldl (fun acc c => acc * 10 + (c.toNat - 48)) 0

/-- Model of `std::stoi` (used at interpreter.cpp lines 163 and 2302):
skip C-locale whitespace, optional sign, then a non-empty decimal digit
run; trailing characters are ignored.  Returns none when no digits are
found (`invalid_argument`) or the value falls outside the 32-bit int range
(`out_of_range`); both C++ failures raise exceptions that every call site
catches. -/
def stoiModel (s : String) : Option Int :=
  let l := s.data.dropWhile isCSpace
  let sign : Int := if l.head? = some '-' then -1 else 1
  let rest := if l.head? = some '-' || l.head? = some '+' then l.tail else l
  let ds := rest.takeWhile Char.isDigit
  if ds.isEmpty then none
  else
    let n : Int := sign * (digitsToNat ds : Int)
    if n < -2147483648 || n > 2147483647 then none else some n

/-- Model of `std::stof` (interpreter.cpp line 2300) on plain decimal
spellings: skip C-locale whitespace, optional sign, then a mantissa
`digits [ . digits ]` with at least one digit overall; trailing characters
are ignored and the exact decimal value is returned as a rational.
Exponent, hexadecimal, infinity and nan spellings, and float range and
rounding, are outside every settled claim and are not modelled. -/
def stofModel (s : String) : Option Rat :=
  let l := s.data.dropWhile isCSpace
  let rest := if l.head? = some '-' || l.head? = some '+' then l.tail else l
  let ip := rest.takeWhile Char.isDigit
  let afterIp := rest.drop ip.length
  let fp : List Char :=
    if afterIp.head? = some '.' then afterIp.tail.takeWhile Char.isDigit else []
  if ip.isEmpty && fp.isEmpty then none
  else
    let den : Nat := 10 ^ fp.length
    let num : Int := (digitsToNat ip : Int) * den + (digitsToNat fp : Int)
    some (mkRat (if l.head? = some '-' then -num else num) den)

/-- Type-alias registry (`Interpreter::typeRegistry`, part_000 line 93),
an association list keyed by spec name. -/
def TypeReg := List (String × String)

/-- Registry lookup, modelling `typeRegistry.find(t)`. -/
def regLookup (reg : TypeReg) (t : String) : Option String :=
  match reg with
  | [] => none
  | (k, v) :: rest => if k == t then some v else regLookup rest t

/-- Object-field lookup, modelling `obj->fields.find(name)` on the
association-list representation (keys are unique because every writer
replaces an existing key). -/
def fieldsFind (fields : List (String × Value)) (name : String) : Option Value :=
  match fields with
  | [] => none
  | (k, v) :: rest => if k == name then some v else fieldsFind rest name

/-- Skip set of the object-type field loop (interpreter.cpp line 105):
space, tab, newline - no carriage return. -/
def isObjSkipSpace (c : Char) : Bool :=
  c = ' ' || c = '\t' || c = '\n'

/-- Split a character list at the first colon, modelling
`inner.find(':', pos)` (interpreter.cpp line 109): `none` when absent,
otherwise the characters before and after the colon. -/
def splitAtColon : List Char → Option (List Char × List Char)
  | [] => none
  | c :: cs =>
    if c = ':' then some ([], cs)
    else (splitAtColon cs).map (fun p => (c :: p.1, p.2))

/-- Scan a field type with brace/bracket counters until a top-level comma
or the end (interpreter.cpp lines 115-130).  Returns the type characters
and the characters after the stopping comma (empty when stopped at the
end, matching `pos = typeEnd + 1` running past the end). -/
def scanFieldType : List Char → Int → Int → (List Char × List Char)
  | [], _, _ => ([], [])
  | c :: cs, braceCount, bracketCount =>
    if c = ',' && braceCount = 0 && bracketCount = 0 then ([], cs)
    else
      let braceCount' :=
        if c = lbraceC then braceCount + 1
        else if c = rbraceC then braceCount - 1 else braceCount
      let bracketCount' :=
        if c = '[' then bracketCount + 1
        else if c = ']' then bracketCount - 1 else bracketCount
      let p := scanFieldType cs braceCount' bracketCount'
      (c :: p.1, p.2)

/-- String-literal spec test: `t.size() >= 2 && t.front() == quote &&
t.back() == quote` (interpreter.cpp line 153). -/
def isQuotedForm (l : List Char) : Bool :=
  isBracketForm l '"' '"'

/-- Integer-literal spec test (interpreter.cpp line 160): all characters
from the set digits and minus, non-empty, and not the bare minus. -/
def isIntLiteralForm (t : String) : Bool :=
  t.data.all (fun c => c.isDigit || c = '-') && !t.isEmpty && t != "-"

mutual

/-- Function `valueMatchesType` (interpreter.cpp lines 52-195).  The fuel
argument models the unbounded C++ recursion (which can loop forever on a
cyclic alias registry); every theorem quantifies over or instantiates
sufficient fuel.  Branch order follows the source exactly: alias registry,
array form, object form, union split, string literal, integer literal,
true, false, any, base tags, function specs, final failure. -/
def valueMatchesType : Nat → TypeReg → Value → String → Bool
  | 0, _, _, _ => false
  | fuel + 1, reg, v, typeSpec =>
    let t := trimAxo typeSpec
    if t.isEmpty then false
    else
      match regLookup reg t with
      | some customTypeSpec => valueMatchesType fuel reg v customTypeSpec
      | none =>
        if isBracketForm t.data '[' ']' then
          match v with
          | .vArr elems =>
            let inner := (t.data.drop 1).dropLast
            if inner.contains ',' then
              let elementTypes := (splitCharList ',' inner).map (fun l => trimAxo ⟨l⟩)
              elems.length == elementTypes.length && vmtZip fuel reg elems elementTypes
            else
              vmtAll fuel reg elems ⟨inner⟩
          | _ => false
        else if isBracketForm t.data lbraceC rbraceC then
          match v with
          | .vObj fields =>
            let inner := (t.data.drop 1).dropLast
            if inner.isEmpty then true else objFieldLoop fuel reg fields inner
          | _ => false
        else if containsChar t '|' then
          vmtAny fuel reg v (splitUnion t)
        else if isQuotedForm t.data then
          match v with
          | .vStr s => ((t.data.drop 1).dropLast : List Char) = s.data
          | _ => false
        else if isIntLiteralForm t then
          match v with
          | .vInt n =>
            match stoiModel t with
            | some expectedInt => n == expectedInt
            | none => vmtTail reg v t
          | _ => false
        else
          vmtTail reg v t

/-- Tail of `valueMatchesType` after the literal branches (interpreter.cpp
lines 171-194), also reached when the integer-literal branch catches a
stoi failure and falls through. -/
def vmtTail (reg : TypeReg) (v : Value) (t : String) : Bool :=
  if t == "true" then match v with | .vBool b => b == true | _ => false
  else if t == "false" then match v with | .vBool b => b == false | _ => false
  else if t == "any" then true
  else if t == "int" then match v with | .vInt _ => true | _ => false
  else if t == "float" then match v with | .vFloat _ => true | _ => false
  else if t == "string" then match v with | .vStr _ => true | _ => false
  else if t == "bool" then match v with | .vBool _ => true | _ => false
  else if t == "object" then match v with | .vObj _ => true | _ => false
  else if t == "func" || t.data.head? = some '(' then
    match v with
    | .vFuncRef _ => true
    | .vFuncExpr _ => true
    | _ => false
  else false

/-- All elements match the inner type (interpreter.cpp lines 85-89). -/
def vmtAll : Nat → TypeReg → List Value → String → Bool
  | 0, _, _, _ => false
  | _ + 1, _, [], _ => true
  | fuel + 1, reg, e :: es, t =>
    valueMatchesType fuel reg e t && vmtAll fuel reg es t

/-- Tuple check: elements against slot types pairwise (interpreter.cpp
lines 79-83). -/
def vmtZip : Nat → TypeReg → List Value → List String → Bool
  | 0, _, _, _ => false
  | _ + 1, _, [], [] => true
  | _ + 1, _, [], _ :: _ => true
  | _ + 1, _, _ :: _, [] => true
  | fuel + 1, reg, e :: es, t :: ts =>
    valueMatchesType fuel reg e t && vmtZip fuel reg es ts

/-- Union split: accept when any part accepts (interpreter.cpp
lines 144-150). -/
def vmtAny : Nat → TypeReg → Value → List String → Bool
  | 0, _, _, _ => false
  | _ + 1, _, _, [] => false
  | fuel + 1, reg, v, p :: ps =>
    valueMatchesType fuel reg v p || vmtAny fuel reg v ps

/-- Object-type field loop (interpreter.cpp lines 102-139): skip
whitespace, stop with success at the end or when no colon remains, else
parse one `name : type` field, require the object to carry a matching
field, and continue after the separating comma. -/
def objFieldLoop : Nat → TypeReg → List (String × Value) → List Char → Bool
  | 0, _, _, _ => false
  | fuel + 1, reg, fields, inner =>
    let rest := inner.dropWhile isObjSkipSpace
    if rest.isEmpty then true
    else
      match splitAtColon rest with
      | none => true
      | some (beforeColon, afterColon) =>
        let fieldName := trimAxo ⟨beforeColon⟩
        let scanned := scanFieldType afterColon 0 0
        let fieldType := trimAxo ⟨scanned.1⟩
        match fieldsFind fields fieldName with
        | none => false
        | some fv =>
          if !valueMatchesType fuel reg fv fieldType then false
          else objFieldLoop fuel reg fields scanned.2

end

/-- One scope frame: a name-to-variable map modelled as an association
list with unique keys (part_000 line 66). -/
def Scope := List (String × Variable)

/-- Scope lookup, modelling `it->find(name)`. -/
def scopeFind (sc : Scope) (name : String) : Option Variable :=
  match sc with
  | [] => none
  | (k, v) :: rest => if k == name then some v else scopeFind rest name

/-- In-place update of the value of an existing binding,
modelling `found->second.value = value`.  Keys are unique, so rewriting
every matching entry updates exactly the found binding. -/
def scopeUpdateValue (sc : Scope) (name : String) (value : Value) : Scope :=
  match sc with
  | [] => []
  | (k, w) :: rest =>
    if k == name then (k, { w with value := value }) :: scopeUpdateValue rest name value
    else (k, w) :: scopeUpdateValue rest name value

/-- Insert-or-overwrite in one scope, modelling
`scopes.back()[name] = var` on a unique-key map (order inside a frame is
irrelevant: `std::unordered_map` has none). -/
def scopeInsert (sc : Scope) (name : String) (var : Variable) : Scope :=
  if (scopeFind sc name).isSome then
    sc.map (fun p => if p.1 == name then (p.1, var) else p)
  else
    (name, var) :: sc

/-- Environment: scope frames with the head innermost (the back of the
C++ vector, part_000 lines 56-67). -/
def Environment := List Scope

/-- Operation `Environment::define` (interpreter.cpp lines 198-205):
ensure one frame exists, then insert-or-overwrite in the innermost. -/
def envDefine (env : Environment) (name : String) (var : Variable) : Environment :=
  match env with
  | [] => [scopeInsert [] name var]
  | sc :: rest => scopeInsert sc name var :: rest

/-- Operation `Environment::get` (interpreter.cpp lines 207-218) as an
option; callers turn `none` into the fatal undefined-variable error. -/
def envGet (env : Environment) (name : String) : Option Variable :=
  match env with
  | [] => none
  | sc :: rest =>
    match scopeFind sc name with
    | some var => some var
    | none => envGet rest name

/-- Operation `Environment::has` (interpreter.cpp lines 245-255). -/
def envHas (env : Environment) (name : String) : Bool :=
  (envGet env name).isSome

/-- Write gate of `Environment::set` (interpreter.cpp lines 230-233): the
matcher is consulted only when the declared spec is non-empty and contains
a bar, contains an open bracket, or equals any. -/
def setGate (declared : String) : Bool :=
  !declared.isEmpty &&
    (containsChar declared '|' || containsChar declared '[' || declared == "any")

/-- Operation `Environment::set` (interpreter.cpp lines 220-243):
innermost-first search; on the nearest binding, consult the matcher only
behind `setGate`, failing with the type error naming the variable and its
declared spec; store otherwise; undefined-variable error when no frame
holds the name.  The fuel and registry feed `valueMatchesType`. -/
def envSet (fuel : Nat) (reg : TypeReg) :
    Environment → String → Value → Except String Environment
  | [], name, _ => .error ("Undefined variable: " ++ name)
  | sc :: rest, name, value =>
    match scopeFind sc name with
    | some found =>
      if setGate found.type && !valueMatchesType fuel reg value found.type then
        .error ("Type error: cannot assign value to variable '" ++ name ++
          "' of type '" ++ found.type ++ "'")
      else
        .ok (scopeUpdateValue sc name value :: rest)
    | none => (envSet fuel reg rest name value).map (fun e => sc :: e)

/-- Operation `Environment::pushScope` (interpreter.cpp lines 257-260). -/
def envPushScope (env : Environment) : Environment :=
  [] :: env

/-- Operation `Environment::popScope` (interpreter.cpp lines 262-268):
pop the innermost frame when one exists. -/
def envPopScope (env : Environment) : Environment :=
  match env with
  | [] => []
  | _ :: rest => rest

/-- Binary operator taxonomy (include/operators.h, operators.cpp). -/
inductive BinaryOperator where
  | add | subtract | multiply | divide | modulo
  | less | greater | lessEqual | greaterEqual
  | equal | notEqual | logicalAnd | logicalOr | assignOp
deriving DecidableEq

/-- Unary operator taxonomy. -/
inductive UnaryOperator where
  | negate | logicalNot | typeofOp
deriving DecidableEq

/-- Function `binaryOpToString` (operators.cpp lines 29-47). -/
def binaryOpToString : BinaryOperator → String
  | .add => "+"
  | .subtract => "-"
  | .multiply => "*"
  | .divide => "/"
  | .modulo => "%"
  | .equal => "=="
  | .notEqual => "!="
  | .less => "<"
  | .greater => ">"
  | .lessEqual => "<="
  | .greaterEqual => ">="
  | .logicalAnd => "&&"
  | .logicalOr => "||"
  | .assignOp => "="

mutual

/-- Expression nodes of the AST fragment the settled claims exercise
(ast.cpp / include/ast.h).  Calls are by callee name, covering the
builtin-name and named-function resolution paths of
`visit(FunctionCall)`; `assignE` models the Assignment expression node. -/
inductive Expr where
  | integerLit (n : Int)
  | stringLit (s : String)
  | booleanLit (b : Bool)
  | ident (name : String)
  | binary (l : Expr) (op : BinaryOperator) (r : Expr)
  | unary (op : UnaryOperator) (operand : Expr)
  | callE (name : String) (args : List Expr)
  | assignE (name : String) (value : Expr)

/-- Statement and declaration nodes of the modelled fragment.  A `Block`
is its statement list; `importDecl` carries the already-resolved module
path (path resolution is filesystem work outside the embedding). -/
inductive Stmt where
  | exprStmt (e : Expr)
  | blockStmt (stmts : List Stmt)
  | varDecl (name : String) (type : String) (init : Option Expr)
  | ifStmt (cond : Expr) (thenB : List Stmt) (elseB : Option (List Stmt))
  | whileStmt (cond : Expr) (body : List Stmt)
  | returnStmt (value : Option Expr)
  | throwStmt (e : Expr)
  | tryStmt (tryB : List Stmt) (catchVar : String) (catchB : Option (List Stmt))
      (finallyB : Option (List Stmt))
  | breakStmt
  | continueStmt
  | switchStmt (disc : Expr) (cases : List CaseClause)
  | funcDecl (name : String) (params : List (String × String)) (body : List Stmt)
  | importDecl (resolvedPath : String) (defaultImport : String) (namedImports : List String)
  | exportNamed (names : List String)
  | typeDecl (name : String) (spec : String)

/-- Case clause of a switch statement. -/
inductive CaseClause where
  | mk (isDefault : Bool) (value : Expr) (body : List Stmt)

end

/-- Default flag of a case clause. -/
def CaseClause.isDefault : CaseClause → Bool
  | .mk d _ _ => d

/-- Value expression of a case clause. -/
def CaseClause.value : CaseClause → Expr
  | .mk _ v _ => v

/-- Statement list of a case clause. -/
def CaseClause.body : CaseClause → List Stmt
  | .mk _ _ b => b

/-- Registered function: parameter list (name, declared type) and body
(class FunctionDeclaration). -/
structure FuncDef where
  params : List (String × String)
  body : List Stmt

/-- Generic association-list lookup keyed by string, modelling
`std::unordered_map::find`. -/
def lookupStr {α : Type} (l : List (String × α)) (k : String) : Option α :=
  match l with
  | [] => none
  | (k2, v) :: rest => if k2 == k then some v else lookupStr rest k

/-- Generic association-list insert-or-replace, modelling
`map[key] = value`. -/
def insertStr {α : Type} (l : List (String × α)) (k : String) (v : α) :
    List (String × α) :=
  if (lookupStr l k).isSome then
    l.map (fun p => if p.1 == k then (p.1, v) else p)
  else
    l ++ [(k, v)]

/-- Interpreter state (part_000 lines 139-162): the environment, the
function/program registries (programs stay empty in the modelled
fragment), the type-alias registry, the module bookkeeping, the
`lastValue`/`lastVariable`/`lastVariableName` scratch slots of the
string-result protocol, and collected stdout lines.  The `files` map
models the filesystem seen by the module loader: resolved path to parsed
module program.  `pendingWhens` stays empty because the modelled fragment
has no when-statement, making `checkPendingWhens` a no-op. -/
structure InterpState where
  env : Environment
  functions : List (String × Nat)
  funcTable : List FuncDef
  typeRegistry : TypeReg
  importedFiles : List String
  moduleExports : List (String × List (String × Value))
  moduleDefaultExports : List (String × Value)
  currentModulePath : String
  lastValue : Value
  lastVariable : Variable
  lastVariableName : String
  output : List String
  files : List (String × List Stmt)

/-- Initial interpreter state (constructor at interpreter.cpp
lines 271-276 pushes the first scope; `Value` and `Variable` default to
int 0). -/
def initState (files : List (String × List Stmt)) : InterpState :=
  { env := [[]]
    functions := []
    funcTable := []
    typeRegistry := []
    importedFiles := []
    moduleExports := []
    moduleDefaultExports := []
    currentModulePath := ""
    lastValue := .vInt 0
    lastVariable := { value := .vInt 0, type := "int", isConst := false }
    lastVariableName := ""
    output := []
    files := files }

/-- Evaluation outcome: normal completion or one of the C++ exceptions
`ReturnException` / `BreakException` / `ContinueException` /
`ThrowException` (part_000 lines 69-89), a `std::runtime_error`
(`fatal`), undefined behaviour reached (`undef`, for the unguarded
integer division), or fuel exhaustion (`outOfFuel`, the artifact of
modelling unbounded recursion; no theorem rests on it).  Each outcome
carries the interpreter state at that point, since the C++ state is a
mutable object that exceptions leave as-is. -/
inductive Res (α : Type) where
  | ok (a : α) (s : InterpState)
  | ret (v : Value) (s : InterpState)
  | brk (s : InterpState)
  | cont (s : InterpState)
  | thrown (v : Value) (s : InterpState)
  | fatal (msg : String) (s : InterpState)
  | undef (msg : String) (s : InterpState)
  | outOfFuel (s : InterpState)

/-- State carried by an outcome. -/
def Res.state {α : Type} : Res α → InterpState
  | .ok _ s => s
  | .ret _ s => s
  | .brk s => s
  | .cont s => s
  | .thrown _ s => s
  | .fatal _ s => s
  | .undef _ s => s
  | .outOfFuel s => s

/-- Sequencing: continue on normal completion, propagate anything else. -/
def Res.andThen {α β : Type} : Res α → (α → InterpState → Res β) → Res β
  | .ok a s, f => f a s
  | .ret v s, _ => .ret v s
  | .brk s, _ => .brk s
  | .cont s, _ => .cont s
  | .thrown v s, _ => .thrown v s
  | .fatal m s, _ => .fatal m s
  | .undef m s, _ => .undef m s
  | .outOfFuel s, _ => .outOfFuel s

mutual

/-- Function `Interpreter::valueToString` (interpreter.cpp
lines 2442-2499).  Floats are formatted by `ostringstream`, which no
settled claim observes; the model returns a marker for them.  Object
fields print in list order (the C++ `unordered_map` order is
unspecified). -/
def valueToString : Value → String
  | .vInt n => toString n
  | .vFloat _ => "[float-format-unmodelled]"
  | .vStr s => s
  | .vBool b => if b then "true" else "false"
  | .vFuncRef _ => "[function]"
  | .vFuncExpr _ => "[function]"
  | .vArr elems => "[" ++ valueListToString elems ++ "]"
  | .vObj fields => lbraceC.toString ++ fieldsToString fields ++ rbraceC.toString

/-- Array elements joined by comma-space (interpreter.cpp
lines 2473-2480). -/
def valueListToString : List Value → String
  | [] => ""
  | [v] => valueToString v
  | v :: v2 :: rest => valueToString v ++ ", " ++ valueListToString (v2 :: rest)

/-- Object fields joined by comma-space as `key: value`
(interpreter.cpp lines 2486-2495). -/
def fieldsToString : List (String × Value) → String
  | [] => ""
  | [(k, v)] => k ++ ": " ++ valueToString v
  | (k, v) :: f2 :: rest => k ++ ": " ++ valueToString v ++ ", " ++ fieldsToString (f2 :: rest)

end

/-- Function `Interpreter::isTruthy` (interpreter.cpp lines 2411-2440).
The final fallback returns false, so function references are falsy in the
code. -/
def isTruthy : Value → Bool
  | .vBool b => b
  | .vInt n => n != 0
  | .vFloat q => q != 0
  | .vStr s => !s.isEmpty
  | .vArr e => !e.isEmpty
  | .vObj f => !f.isEmpty
  | .vFuncRef _ => false
  | .vFuncExpr _ => false

/-- Marker strings of the string-result protocol checked by
`Interpreter::evaluate` (interpreter.cpp line 2285). -/
def markerStrings : List String :=
  ["[array]", "\x7bobject\x7d", "[function]", "[bool]", "[int]", "[string]"]

/-- String-to-value conversion of `Interpreter::evaluate`
(interpreter.cpp lines 2281-2308): markers pass `lastValue` through;
otherwise the string is re-parsed - empty stays the empty string,
`true`/`false` become bools, a spelling with a dot goes through stof, any
other through stoi, and a parse failure keeps the string. -/
def toValue (result : String) (last : Value) : Value :=
  if !result.data.isEmpty && markerStrings.contains result then last
  else if result.data.isEmpty then .vStr ""
  else if result == "true" then .vBool true
  else if result == "false" then .vBool false
  else if containsChar result '.' then
    match stofModel result with
    | some q => .vFloat q
    | none => .vStr result
  else
    match stoiModel result with
    | some n => .vInt n
    | none => .vStr result

/-- Outcome of `Interpreter::performBinaryOp`: a value, a thrown
`std::runtime_error`, the undefined behaviour of a zero divisor reaching
the hardware integer division, or an unexercised float operation (float
arithmetic and comparison are outside every settled claim). -/
inductive BinOut where
  | okv (v : Value)
  | err (msg : String)
  | intDivByZero
  | unmodelledFloat

/-- Shared tail of `performBinaryOp` (interpreter.cpp lines 2366-2387):
string concatenation for `+`, truthiness for the logical operators (both
sides already evaluated - no short-circuit), pass-through for `=`,
string-form comparison for `==`/`!=`, and the unknown-operator error. -/
def performBinaryOpCommon (left : Value) (op : BinaryOperator) (right : Value) : BinOut :=
  if op = .add then .okv (.vStr (valueToString left ++ valueToString right))
  else
    match op with
    | .logicalAnd => .okv (.vBool (isTruthy left && isTruthy right))
    | .logicalOr => .okv (.vBool (isTruthy left || isTruthy right))
    | .assignOp => .okv right
    | .equal => .okv (.vBool (valueToString left == valueToString right))
    | .notEqual => .okv (.vBool (valueToString left != valueToString right))
    | _ => .err ("Unknown operator: " ++ binaryOpToString op)

/-- Function `Interpreter::performBinaryOp` (interpreter.cpp
lines 2325-2388).  The int fast path computes C++ truncating division and
remainder with no zero-divisor guard: a zero divisor is the
`intDivByZero` undefined-behaviour outcome.  The float fast path covers
the same operators except `%`; operators absent from a fast path fall
through to the common tail. -/
def performBinaryOp (left : Value) (op : BinaryOperator) (right : Value) : BinOut :=
  match left, right with
  | .vInt l, .vInt r =>
    match op with
    | .add => .okv (.vInt (l + r))
    | .subtract => .okv (.vInt (l - r))
    | .multiply => .okv (.vInt (l * r))
    | .divide => if r = 0 then .intDivByZero else .okv (.vInt (Int.tdiv l r))
    | .modulo => if r = 0 then .intDivByZero else .okv (.vInt (Int.tmod l r))
    | .less => .okv (.vBool (decide (l < r)))
    | .greater => .okv (.vBool (decide (l > r)))
    | .lessEqual => .okv (.vBool (decide (l ≤ r)))
    | .greaterEqual => .okv (.vBool (decide (l ≥ r)))
    | .equal => .okv (.vBool (decide (l = r)))
    | .notEqual => .okv (.vBool (decide (l ≠ r)))
    | _ => performBinaryOpCommon left op right
  | .vFloat _, .vFloat _ =>
    match op with
    | .modulo | .logicalAnd | .logicalOr | .assignOp => performBinaryOpCommon left op right
    | _ => .unmodelledFloat
  | _, _ => performBinaryOpCommon left op right

/-- Runtime tag names (fallback of `getTypeOfValue`, interpreter.cpp
lines 2524-2553). -/
def runtimeTagName : Value → String
  | .vInt _ => "int"
  | .vFloat _ => "float"
  | .vStr _ => "string"
  | .vBool _ => "bool"
  | .vFuncRef _ => "function"
  | .vFuncExpr _ => "function"
  | .vArr _ => "array"
  | .vObj _ => "object"

/-- Tag tests used by `getTypeOfValue`. -/
def Value.isIntTag : Value → Bool
  | .vInt _ => true
  | _ => false

/-- Float tag test. -/
def Value.isFloatTag : Value → Bool
  | .vFloat _ => true
  | _ => false

/-- String tag test. -/
def Value.isStrTag : Value → Bool
  | .vStr _ => true
  | _ => false

/-- Bool tag test. -/
def Value.isBoolTag : Value → Bool
  | .vBool _ => true
  | _ => false

/-- Function tag test (either function-pointer variant). -/
def Value.isFuncTag : Value → Bool
  | .vFuncRef _ => true
  | .vFuncExpr _ => true
  | _ => false

/-- Array tag test. -/
def Value.isArrTag : Value → Bool
  | .vArr _ => true
  | _ => false

/-- Object tag test. -/
def Value.isObjTag : Value → Bool
  | .vObj _ => true
  | _ => false

/-- Function `Interpreter::getTypeOfValue` (interpreter.cpp
lines 2501-2554): with variable info from the last identifier read, a
registered alias name is returned as-is; a primitive declared type is
returned only when it agrees with the runtime tag; a bracketed declared
type is returned when the value is an array; everything else - including
union declared types - falls through to the runtime tag name. -/
def getTypeOfValue (s : InterpState) (v : Value) : String :=
  if !s.lastVariableName.isEmpty && !s.lastVariable.type.isEmpty then
    let declaredType := s.lastVariable.type
    if (regLookup s.typeRegistry declaredType).isSome then declaredType
    else if declaredType == "int" && v.isIntTag then "int"
    else if declaredType == "float" && v.isFloatTag then "float"
    else if declaredType == "string" && v.isStrTag then "string"
    else if declaredType == "bool" && v.isBoolTag then "bool"
    else if declaredType == "function" && v.isFuncTag then "function"
    else if isBracketForm declaredType.data '[' ']' && v.isArrTag then declaredType
    else if declaredType == "object" && v.isObjTag then "object"
    else runtimeTagName v
  else runtimeTagName v

/-- Function `Interpreter::performUnaryOp` (interpreter.cpp
lines 2390-2409).  Negating a non-numeric value trips
`std::bad_variant_access` in the source, modelled as a fatal outcome;
`typeof` consults `getTypeOfValue` and then clears the variable scratch
slots. -/
def performUnaryOp (op : UnaryOperator) (operand : Value) (s : InterpState) :
    Except String (Value × InterpState) :=
  match op with
  | .negate =>
    match operand with
    | .vInt n => .ok (.vInt (-n), s)
    | .vFloat q => .ok (.vFloat (-q), s)
    | _ => .error "bad_variant_access: negate on non-numeric value"
  | .logicalNot => .ok (.vBool (!isTruthy operand), s)
  | .typeofOp =>
    let typeStr := getTypeOfValue s operand
    .ok (.vStr typeStr,
      { s with lastVariableName := "",
               lastVariable := { value := .vInt 0, type := "int", isConst := false } })

/-- Condition matcher of the loop fast path (part_009 lines 33-54):
accepts only the LESS operator, with identifier-then-int or
int-then-identifier operands; in both cases the int is used as the limit
(so `N < i` is accepted and treated like `i < N`; `N > i` is not
accepted, despite the source comment). -/
def matchConditionAsIdLtInt : Expr → Option (String × Int)
  | .binary (.ident i) .less (.integerLit n) => some (i, n)
  | .binary (.integerLit n) .less (.ident i) => some (i, n)
  | _ => none

/-- Increment matcher on expressions (part_009 lines 57-91):
`id = id + CONST` with the same identifier on both sides. -/
def matchIncrementE : Expr → Option (String × Int)
  | .assignE name (.binary (.ident l) .add (.integerLit k)) =>
    if l == name then some (name, k) else none
  | _ => none

/-- Increment matcher on statements: an expression statement wrapping an
increment assignment. -/
def matchIncrementS : Stmt → Option (String × Int)
  | .exprStmt e => matchIncrementE e
  | _ => none

/-- Method `LLVMJITCompiler::isCompilable(WhileStatement*)` (part_009
lines 93-108): condition matches, body non-empty, and at least one body
statement is a constant increment - other body statements are not
inspected. -/
def isCompilableWhile (cond : Expr) (body : List Stmt) : Bool :=
  (matchConditionAsIdLtInt cond).isSome &&
    body.length ≥ 1 &&
    body.any (fun st => (matchIncrementS st).isSome)

/-- Method `LLVMJITCompiler::compileAndExecute(WhileStatement*)`
(part_009 lines 111-224).  Returns the updated environment when the fast
path handled the loop (C++ true) and `none` when it declined (C++
false).  The LLVM IR built at lines 146-203 always verifies for the
matched shape and its result is discarded by the source ("Skip JIT for
now"), so only the closed-form update remains: `iterations` is `limit -
loopVal` regardless of the increment step, each incremented variable gets
`current + step * iterations`, and the loop variable gets `loopVal + step
* iterations`; failures of the per-variable `env.set` and `env.get` are
swallowed by the `catch` at line 220. -/
def compileAndExecuteWhile (fuel : Nat) (reg : TypeReg) (cond : Expr)
    (body : List Stmt) (env : Environment) : Option Environment :=
  match matchConditionAsIdLtInt cond with
  | none => none
  | some (loopId, limit) =>
    let increments := body.filterMap matchIncrementS
    if increments.isEmpty then none
    else
      let otherId := (((increments.find? (fun p => p.1 != loopId)).map (fun p => p.1)).getD "")
      match envGet env loopId with
      | none => none
      | some lv =>
        let loopVal : Int := match lv.value with | .vInt n => n | _ => 0
        if otherId != "" && (envGet env otherId).isNone then none
        else
          let iterations := limit - loopVal
          if iterations ≤ 0 then some env
          else
            some (increments.foldl (fun e p =>
              if p.1 == loopId then
                match envSet fuel reg e loopId (.vInt (loopVal + p.2 * iterations)) with
                | .ok e2 => e2
                | .error _ => e
              else
                match envGet e p.1 with
                | some var =>
                  match var.value with
                  | .vInt cur =>
                    match envSet fuel reg e p.1 (.vInt (cur + p.2 * iterations)) with
                    | .ok e2 => e2
                    | .error _ => e
                  | _ => e
                | none => e) env)

/-- Replace the state carried by an outcome, used where the C++ code
re-raises a caught exception after further statements ran. -/
def Res.withState {α : Type} : Res α → InterpState → Res α
  | .ok a _, s => .ok a s
  | .ret v _, s => .ret v s
  | .brk _, s => .brk s
  | .cont _, s => .cont s
  | .thrown v _, s => .thrown v s
  | .fatal m _, s => .fatal m s
  | .undef m _, s => .undef m s
  | .outOfFuel _, s => .outOfFuel s

/-- Scan for a dollar directly followed by an open brace. -/
def hasInterpMarker : List Char → Bool
  | [] => false
  | [_] => false
  | c :: c2 :: rest =>
    if c = '$' && c2 = lbraceC then true else hasInterpMarker (c2 :: rest)

/-- Marker test of `visit(StringLiteral)` (interpreter.cpp line 311). -/
def hasInterpolation (s : String) : Bool :=
  hasInterpMarker s.data

/-- Binding list an import materializes (interpreter.cpp
lines 1956-1993): the default export under the default-import name when
both exist, then each requested named export that the module actually
exports, in request order, looked up in the per-module registries. -/
def importBindingsAt (path dflt : String) (named : List String) (s : InterpState) :
    List (String × Value) :=
  (if dflt != "" then
    match lookupStr s.moduleDefaultExports path with
    | some v => [(dflt, v)]
    | none => []
  else []) ++
  (match lookupStr s.moduleExports path with
   | some exps => named.filterMap (fun n => (lookupStr exps n).map (fun v => (n, v)))
   | none => [])

/-- One import binding: define the name as a const `any` variable
(interpreter.cpp lines 1962 and 1983) and, when the value is a
`FunctionDeclaration*`, also register it in the function registry
(lines 1964-1966 and 1985-1987). -/
def defineImported (s : InterpState) (n : String) (v : Value) : InterpState :=
  let s1 := { s with env := envDefine s.env n { value := v, type := "any", isConst := true } }
  match v with
  | .vFuncRef idx => { s1 with functions := insertStr s1.functions n idx }
  | _ => s1

/-- Apply every binding an import materializes. -/
def applyImportBindings (path dflt : String) (named : List String) (s : InterpState) :
    InterpState :=
  (importBindingsAt path dflt named s).foldl (fun st p => defineImported st p.1 p.2) s

/-- Space-joined argument pieces of the print builtin (interpreter.cpp
lines 552-565). -/
def joinSpace : List String → String
  | [] => ""
  | [p] => p
  | p :: p2 :: rest => p ++ " " ++ joinSpace (p2 :: rest)

/-- Case loop of `visit(SwitchStatement)` (interpreter.cpp
lines 2709-2735), parameterized by the expression evaluator and the
statement-list runner so the fall-through behaviour can be analyzed for
arbitrary case values.  The two flags are `matched` and `fallthrough`; a
non-default case evaluates its value each visit and runs its body when
the string forms agree or when falling through; a default runs when
nothing matched yet or when falling through; after any body both flags
are set one, and any raised signal (including the Break the switch arm
catches) stops the walk. -/
def runSwitchCases (evalV : Expr → InterpState → Res Value)
    (runStmts : List Stmt → InterpState → Res Unit) :
    Value → Bool → Bool → List CaseClause → InterpState → Res Unit
  | _, _, _, [], s => .ok () s
  | d, matched, ft, c :: cs, s =>
    if c.isDefault then
      if !matched || ft then
        (runStmts c.body s).andThen fun _ s1 =>
          runSwitchCases evalV runStmts d true true cs s1
      else runSwitchCases evalV runStmts d matched ft cs s
    else
      (evalV c.value s).andThen fun v s1 =>
      if valueToString d == valueToString v || ft then
        (runStmts c.body s1).andThen fun _ s2 =>
          runSwitchCases evalV runStmts d true true cs s2
      else runSwitchCases evalV runStmts d matched ft cs s1

mutual

/-- Visitor dispatch for expressions, returning the string-protocol
result (`Expression::accept` into the `Interpreter::visit` overloads at
interpreter.cpp lines 294-420, 422-1588, 1655-1661).  The fuel models the
unbounded C++ recursion; every theorem supplies enough. -/
def visitExpr : Nat → Expr → InterpState → Res String
  | 0, _, s => .outOfFuel s
  | fuel + 1, e, s =>
    match e with
    | .integerLit n => .ok (toString n) s
    | .stringLit str =>
      if hasInterpolation str then
        .fatal "unmodelled: string interpolation" s
      else
        .ok "[string]" { s with lastValue := .vStr str }
    | .booleanLit b => .ok (if b then "true" else "false") s
    | .ident name =>
      match envGet s.env name with
      | none => .fatal ("Undefined variable: " ++ name) s
      | some var =>
        let s1 := { s with lastVariable := var, lastVariableName := name }
        match var.value with
        | .vArr _ => .ok "[array]" { s1 with lastValue := var.value }
        | .vObj _ => .ok "\x7bobject\x7d" { s1 with lastValue := var.value }
        | .vFuncRef _ => .ok "[function]" { s1 with lastValue := var.value }
        | .vFuncExpr _ => .ok "[function]" { s1 with lastValue := var.value }
        | .vStr _ => .ok "[string]" { s1 with lastValue := var.value }
        | _ => .ok (valueToString var.value) s1
    | .binary l op r =>
      (evalExpr fuel l s).andThen fun lv s1 =>
      (evalExpr fuel r s1).andThen fun rv s2 =>
      match performBinaryOp lv op rv with
      | .okv v => .ok (valueToString v) s2
      | .err m => .fatal m s2
      | .intDivByZero => .undef ("zero divisor reached the hardware integer division") s2
      | .unmodelledFloat => .undef ("unmodelled float operation") s2
    | .unary op operand =>
      (evalExpr fuel operand s).andThen fun v s1 =>
      match performUnaryOp op v s1 with
      | .ok (v2, s2) => .ok (valueToString v2) s2
      | .error m => .fatal m s1
    | .assignE name value =>
      (evalExpr fuel value s).andThen fun v s1 =>
      match envSet fuel s1.typeRegistry s1.env name v with
      | .ok env2 => .ok (valueToString v) { s1 with env := env2 }
      | .error m => .fatal m s1
    | .callE name args => visitCall fuel name args s

/-- Function `Interpreter::evaluate` (interpreter.cpp lines 2281-2308):
run the visitor, then re-parse the returned string through `toValue`
against the current `lastValue`. -/
def evalExpr : Nat → Expr → InterpState → Res Value
  | 0, _, s => .outOfFuel s
  | fuel + 1, e, s =>
    (visitExpr fuel e s).andThen fun result s1 => .ok (toValue result s1.lastValue) s1

/-- Argument evaluation for the print builtin: string forms of the
evaluated arguments in order. -/
def evalPrintArgs : Nat → List Expr → InterpState → Res (List String)
  | 0, _, s => .outOfFuel s
  | _ + 1, [], s => .ok [] s
  | fuel + 1, a :: rest, s =>
    (evalExpr fuel a s).andThen fun v s1 =>
    (evalPrintArgs fuel rest s1).andThen fun pieces s2 =>
    .ok (valueToString v :: pieces) s2

/-- Parameter binding of a call (interpreter.cpp lines 1406-1411):
arguments are evaluated left to right inside the fresh scope, each
defined immediately with the declared parameter type. -/
def bindParams : Nat → List Expr → List (String × String) → InterpState → Res Unit
  | 0, _, _, s => .outOfFuel s
  | _ + 1, [], _, s => .ok () s
  | _ + 1, _ :: _, [], s => .ok () s
  | fuel + 1, a :: as, (pn, pt) :: ps, s =>
    (evalExpr fuel a s).andThen fun v s1 =>
    bindParams fuel as ps
      { s1 with env := envDefine s1.env pn { value := v, type := pt, isConst := false } }

/-- Call resolution (`visit(FunctionCall)`, interpreter.cpp
lines 422-1588) for the modelled fragment: the print builtin
(lines 552-565), then the named-function registry path
(lines 1394-1437).  The program registry stays empty here and the other
builtins and environment-callee paths are not reached by any settled
claim; an unknown name is the undefined-function error (line 1513). -/
def visitCall : Nat → String → List Expr → InterpState → Res String
  | 0, _, _, s => .outOfFuel s
  | fuel + 1, name, args, s =>
    if name == "print" then
      (evalPrintArgs fuel args s).andThen fun pieces s1 =>
      .ok "" { s1 with output := s1.output ++ [joinSpace pieces] }
    else
      match lookupStr s.functions name with
      | some idx =>
        match s.funcTable.get? idx with
        | none => .fatal "dangling function registry entry" s
        | some fd =>
          if args.length != fd.params.length then
            .fatal "Function argument count mismatch" s
          else
            (bindParams fuel args fd.params { s with env := envPushScope s.env }).andThen
              fun _ s2 =>
            match execBlock fuel fd.body s2 with
            | .ok _ s3 => .ok "" { s3 with env := envPopScope s3.env }
            | .ret v s3 =>
              let s4 := { s3 with env := envPopScope s3.env }
              match v with
              | .vArr _ => .ok "[array]" { s4 with lastValue := v }
              | .vObj _ => .ok "\x7bobject\x7d" { s4 with lastValue := v }
              | .vFuncRef _ => .ok "[function]" { s4 with lastValue := v }
              | .vFuncExpr _ => .ok "[function]" { s4 with lastValue := v }
              | _ => .ok (valueToString v) s4
            | .brk s3 => .brk s3
            | .cont s3 => .cont s3
            | .thrown v s3 => .thrown v s3
            | .fatal m s3 => .fatal m s3
            | .undef m s3 => .undef m s3
            | .outOfFuel s3 => .outOfFuel s3
      | none => .fatal ("Undefined function: " ++ name) s

/-- Statement dispatch (`Statement::accept` into the statement visitors).
Every arm is a direct transcription; the source lines are cited on the
helper definitions. -/
def execStmt : Nat → Stmt → InterpState → Res Unit
  | 0, _, s => .outOfFuel s
  | fuel + 1, stmt, s =>
    match stmt with
    | .exprStmt e =>
      (evalExpr fuel e s).andThen fun _ s1 => .ok () s1
    | .blockStmt stmts => execBlock fuel stmts s
    | .varDecl name type init =>
      -- visit(VariableDeclaration), interpreter.cpp lines 1596-1653
      match init with
      | some e =>
        (evalExpr fuel e s).andThen fun value s1 =>
        if !valueMatchesType fuel s1.typeRegistry value type then
          .fatal ("Type error: initializer for '" ++ name ++
            "' does not match declared type '" ++ type ++ "'") s1
        else
          let env2 := envDefine s1.env name { value := value, type := type, isConst := false }
          .ok () { s1 with env := env2 }
      | none =>
        let value : Value :=
          if type == "object" then .vObj []
          else if type == "string" then .vStr ""
          else .vInt 0
        let env2 := envDefine s.env name { value := value, type := type, isConst := false }
        .ok () { s with env := env2 }
    | .ifStmt cond thenB elseB =>
      -- visit(IfStatement), interpreter.cpp lines 1728-1740
      (evalExpr fuel cond s).andThen fun c s1 =>
      if isTruthy c then execBlock fuel thenB s1
      else
        match elseB with
        | some b => execBlock fuel b s1
        | none => .ok () s1
    | .whileStmt cond body =>
      -- visit(WhileStatement), interpreter.cpp lines 1742-1765: the loop
      -- fast path is consulted first; on a decline the interpreted loop runs
      if isCompilableWhile cond body then
        match compileAndExecuteWhile fuel s.typeRegistry cond body s.env with
        | some env2 => .ok () { s with env := env2 }
        | none => whileLoop fuel cond body s
      else whileLoop fuel cond body s
    | .returnStmt value =>
      -- visit(ReturnStatement), interpreter.cpp lines 1808-1816
      match value with
      | none => .ret (.vInt 0) s
      | some e => (evalExpr fuel e s).andThen fun v s1 => .ret v s1
    | .throwStmt e =>
      -- visit(ThrowStatement), interpreter.cpp lines 2141-2145
      (evalExpr fuel e s).andThen fun v s1 => .thrown v s1
    | .tryStmt tb cv cb fb =>
      -- visit(TryStatement), interpreter.cpp lines 2147-2197, transcribed
      -- arm by arm; the standalone visitTry twin below has the same body
      match execBlock fuel tb s with
      | .ok _ s1 =>
        match fb with
        | none => .ok () s1
        | some f =>
          match execBlock fuel f s1 with
          | .ok _ s2 => .ok () s2
          | r => r
      | .thrown v s1 =>
        match cb with
        | some cBody =>
          let env1 := envPushScope s1.env
          let env2 :=
            if cv != "" then envDefine env1 cv { value := v, type := "any", isConst := false }
            else env1
          match execBlock fuel cBody { s1 with env := env2 } with
          | .ok _ s3 =>
            let s4 := { s3 with env := envPopScope s3.env }
            match fb with
            | none => .ok () s4
            | some f =>
              match execBlock fuel f s4 with
              | .ok _ s5 => .ok () s5
              | r => r
          | .undef m s3 => .undef m s3
          | .outOfFuel s3 => .outOfFuel s3
          | r =>
            let s4 := { r.state with env := envPopScope r.state.env }
            match fb with
            | none => r.withState s4
            | some f =>
              match execBlock fuel f s4 with
              | .ok _ s5 => r.withState s5
              | r2 => r2
        | none =>
          match fb with
          | none => .thrown v s1
          | some f =>
            match execBlock fuel f s1 with
            | .ok _ s2 => .thrown v s2
            | r => r
      | .fatal m s1 => .fatal m s1
      | .undef m s1 => .undef m s1
      | .outOfFuel s1 => .outOfFuel s1
      | r =>
        match fb with
        | none => r
        | some f =>
          match execBlock fuel f r.state with
          | .ok _ s2 => r.withState s2
          | r2 => r2
    | .breakStmt => .brk s
    | .continueStmt => .cont s
    | .switchStmt disc cases =>
      -- visit(SwitchStatement), interpreter.cpp lines 2703-2743
      (evalExpr fuel disc s).andThen fun d s1 =>
      match runSwitchCases (evalExpr fuel) (execStmts fuel) d false false cases s1 with
      | .brk s2 => .ok () s2
      | r => r
    | .funcDecl name params body =>
      -- visit(FunctionDeclaration), interpreter.cpp lines 1818-1824; the
      -- node address is modelled as a fresh function-table index
      let idx := s.funcTable.length
      let fd : FuncDef := { params := params, body := body }
      let s1 := { s with funcTable := s.funcTable ++ [fd] }
      let s2 := { s1 with functions := insertStr s1.functions name idx }
      let env2 := envDefine s2.env name
        { value := .vFuncRef idx, type := "function", isConst := false }
      .ok () { s2 with env := env2 }
    | .importDecl path dflt named =>
      -- visit(ImportDeclaration), .axo arm (interpreter.cpp
      -- lines 1896-2007): the already-loaded set is consulted before the
      -- module is read, lexed, parsed (the files map models the parsed
      -- filesystem) and interpreted with currentModulePath switched; the
      -- surrounding catch converts every escaping exception into the
      -- fatal import error (lines 2003-2006); bindings are then
      -- materialized from the export registries
      if s.importedFiles.contains path then
        .ok () (applyImportBindings path dflt named s)
      else
        let s1 := { s with importedFiles := path :: s.importedFiles }
        match lookupStr s1.files path with
        | none =>
          .fatal ("Import error (" ++ path ++ "): Could not open import file: " ++ path) s1
        | some prog =>
          let saved := s1.currentModulePath
          match execStmts fuel prog { s1 with currentModulePath := path } with
          | .ok _ s2 =>
            .ok () (applyImportBindings path dflt named { s2 with currentModulePath := saved })
          | .fatal m s2 => .fatal ("Import error (" ++ path ++ "): " ++ m) s2
          | .ret _ s2 => .fatal ("Import error (" ++ path ++ "): std::exception") s2
          | .brk s2 => .fatal ("Import error (" ++ path ++ "): std::exception") s2
          | .cont s2 => .fatal ("Import error (" ++ path ++ "): std::exception") s2
          | .thrown _ s2 => .fatal ("Import error (" ++ path ++ "): std::exception") s2
          | .undef m s2 => .undef m s2
          | .outOfFuel s2 => .outOfFuel s2
    | .exportNamed names =>
      -- visit(ExportDeclaration), named-exports arm (interpreter.cpp
      -- lines 2121-2129): copy each in-scope binding into the exports of
      -- the current module key
      let currentModule := if s.currentModulePath.isEmpty then "<main>" else s.currentModulePath
      .ok () (names.foldl (fun st n =>
        match envGet st.env n with
        | some var =>
          let exps := (lookupStr st.moduleExports currentModule).getD []
          { st with moduleExports :=
              insertStr st.moduleExports currentModule (insertStr exps n var.value) }
        | none => st) s)
    | .typeDecl name spec =>
      -- visit(TypeDeclaration), interpreter.cpp lines 2134-2139
      .ok () { s with typeRegistry := insertStr s.typeRegistry name spec }

/-- Sequential statement execution: the `for` loops over statement lists
in `executeBlock` (interpreter.cpp lines 2318-2321) and in
`interpret`/`visit(Program)` (lines 1826-1833); a raised signal stops
the walk. -/
def execStmts : Nat → List Stmt → InterpState → Res Unit
  | 0, _, s => .outOfFuel s
  | _ + 1, [], s => .ok () s
  | fuel + 1, st :: rest, s =>
    (execStmt fuel st s).andThen fun _ s1 => execStmts fuel rest s1

/-- Function `Interpreter::executeBlock` (interpreter.cpp
lines 2315-2323): push a scope, run the statements, pop the scope - the
pop is reached only on normal completion, so every signaled exit leaks
the pushed frame, exactly as in the source. -/
def execBlock : Nat → List Stmt → InterpState → Res Unit
  | 0, _, s => .outOfFuel s
  | fuel + 1, stmts, s =>
    match execStmts fuel stmts { s with env := envPushScope s.env } with
    | .ok _ s1 => .ok () { s1 with env := envPopScope s1.env }
    | r => r

/-- Interpreted while loop (fallback of `visit(WhileStatement)`,
interpreter.cpp lines 1752-1763): re-evaluate the condition, run the body
block, catch Break (exit) and Continue (next iteration) around it, let
Return/Throw and runtime errors propagate. -/
def whileLoop : Nat → Expr → List Stmt → InterpState → Res Unit
  | 0, _, _, s => .outOfFuel s
  | fuel + 1, cond, body, s =>
    (evalExpr fuel cond s).andThen fun c s1 =>
    if isTruthy c then
      match execBlock fuel body s1 with
      | .ok _ s2 => whileLoop fuel cond body s2
      | .brk s2 => .ok () s2
      | .cont s2 => whileLoop fuel cond body s2
      | r => r
    else .ok () s1

end

/-- Try visitor (`visit(TryStatement)`, interpreter.cpp lines 2147-2197)
as a standalone function of the try-block, catch-clause and finally-block
computations, with the identical branch structure as the inlined
`execStmt` arm (an agreement theorem below equates them).  Arms in source
order: normal completion of the try block reaches the trailing finally
(line 2192); a `ThrowException` with a catch clause binds the catch
variable in a fresh scope, pops it, and runs the trailing finally on
normal catch completion, while any exception from the catch body pops the
scope, runs the finally, and re-raises (lines 2163-2170); a
`ThrowException` without a catch clause runs the finally and re-raises
(lines 2172-2178); a `std::runtime_error` exits the process without the
finally (lines 2180-2184); any other exception - Return, Break, Continue
- runs the finally and re-raises (lines 2185-2190).  Undefined behaviour
and fuel exhaustion are not exceptions and pass through untouched. -/
def visitTry (runB : InterpState → Res Unit) (cv : String)
    (runCatch : Option (InterpState → Res Unit))
    (runFinally : Option (InterpState → Res Unit)) (s : InterpState) : Res Unit :=
  match runB s with
  | .ok _ s1 =>
    match runFinally with
    | none => .ok () s1
    | some f =>
      match f s1 with
      | .ok _ s2 => .ok () s2
      | r => r
  | .thrown v s1 =>
    match runCatch with
    | some c =>
      let env1 := envPushScope s1.env
      let env2 :=
        if cv != "" then envDefine env1 cv { value := v, type := "any", isConst := false }
        else env1
      match c { s1 with env := env2 } with
      | .ok _ s3 =>
        let s4 := { s3 with env := envPopScope s3.env }
        match runFinally with
        | none => .ok () s4
        | some f =>
          match f s4 with
          | .ok _ s5 => .ok () s5
          | r => r
      | .undef m s3 => .undef m s3
      | .outOfFuel s3 => .outOfFuel s3
      | r =>
        let s4 := { r.state with env := envPopScope r.state.env }
        match runFinally with
        | none => r.withState s4
        | some f =>
          match f s4 with
          | .ok _ s5 => r.withState s5
          | r2 => r2
    | none =>
      match runFinally with
      | none => .thrown v s1
      | some f =>
        match f s1 with
        | .ok _ s2 => .thrown v s2
        | r => r
  | .fatal m s1 => .fatal m s1
  | .undef m s1 => .undef m s1
  | .outOfFuel s1 => .outOfFuel s1
  | r =>
    match runFinally with
    | none => r
    | some f =>
      match f r.state with
      | .ok _ s2 => r.withState s2
      | r2 => r2

/-- Crash outcomes: a `std::runtime_error`, undefined behaviour, or fuel
exhaustion - the outcomes that are not signals of the language. -/
def Res.isCrash {α : Type} : Res α → Bool
  | .fatal _ _ => true
  | .undef _ _ => true
  | .outOfFuel _ => true
  | _ => false

/-- Occurrences of a marker line in the collected output. -/
def outCount (tok : String) (s : InterpState) : Nat :=
  s.output.count tok

/-- A computation that never crashes and never prints the marker line:
the instrumentation hypothesis placed on try and catch blocks. -/
def PreservesCount (tok : String) (m : InterpState → Res Unit) : Prop :=
  ∀ s, (m s).isCrash = false ∧ outCount tok (m s).state = outCount tok s

/-- A computation that completes normally and prints the marker line
exactly once: the instrumentation hypothesis placed on the finally
block. -/
def EmitsOnce (tok : String) (m : InterpState → Res Unit) : Prop :=
  ∀ s, ∃ s2, m s = .ok () s2 ∧ outCount tok s2 = outCount tok s + 1

/-- Claim-side definition (from the spec wording of C4): whether a spec
string contains a bar at top level, that is at bracket and brace nesting
depth zero. -/
def hasTopLevelBarAux : List Char → Int → Int → Bool
  | [], _, _ => false
  | c :: cs, bd, kd =>
    if c = '|' && bd = 0 && kd = 0 then true
    else
      let kd2 := if c = lbraceC then kd + 1 else if c = rbraceC then kd - 1 else kd
      let bd2 := if c = '[' then bd + 1 else if c = ']' then bd - 1 else bd
      hasTopLevelBarAux cs bd2 kd2

/-- Claim-side top-level bar test on a spec string. -/
def hasTopLevelBar (s : String) : Bool :=
  hasTopLevelBarAux s.data 0 0

/-- Run the bodies of every listed case in order, stopping at the first
raised signal: the executed suffix in the reference reading of switch
fall-through. -/
def runSelected (runStmts : List Stmt → InterpState → Res Unit) :
    List CaseClause → InterpState → Res Unit
  | [], s => .ok () s
  | c :: cs, s =>
    (runStmts c.body s).andThen fun _ s1 => runSelected runStmts cs s1

/-- Reference switch semantics written from the spec wording of C6: walk
the cases in source order; the first eligible case - a default, or a case
whose value has the discriminant string form - starts execution, which
falls through every subsequent body until a Break signal or the end; with
no eligible case nothing runs.  Case values are given by a pure
valuation `lit`. -/
def switchRefRun (runStmts : List Stmt → InterpState → Res Unit) (dstr : String)
    (lit : CaseClause → Value) : List CaseClause → InterpState → Res Unit
  | [], s => .ok () s
  | c :: cs, s =>
    if c.isDefault || dstr == valueToString (lit c) then runSelected runStmts (c :: cs) s
    else switchRefRun runStmts dstr lit cs s

/-- Inspection helper: the int stored under a name. -/
def envGetInt (env : Environment) (name : String) : Option Int :=
  match envGet env name with
  | some var =>
    match var.value with
    | .vInt n => some n
    | _ => none
  | none => none

/-- Inspection helper: the bool stored under a name. -/
def envGetBool (env : Environment) (name : String) : Option Bool :=
  match envGet env name with
  | some var =>
    match var.value with
    | .vBool b => some b
    | _ => none
  | none => none

/-- Inspection helper: the scope depth reported by an outcome when the
execution completed normally. -/
def okDepth (r : Res Unit) : Option Nat :=
  match r with
  | .ok _ s => some s.env.length
  | _ => none

/-- Inclusion between already-loaded module sets of two states. -/
def impLe (s t : InterpState) : Prop :=
  ∀ q, q ∈ s.importedFiles → q ∈ t.importedFiles

/-- Monotonicity predicate for the already-loaded module set: every path
recorded on entry is still recorded in the outcome state. -/
def ImpMono {α : Type} (s : InterpState) (r : Res α) : Prop :=
  ∀ q, q ∈ s.importedFiles → q ∈ r.state.importedFiles

/-- Example program of C2: a caught throw.  The try block leaks its scope
frame because `executeBlock` pops only on normal completion. -/
def axoTryLeakProg : List Stmt :=
  [.tryStmt [.throwStmt (.integerLit 1)] "e" (some []) none]

/-- Example loop of C3: `while (i < 3) { i = i + 2; }`. -/
def axoLoopCond : Expr :=
  .binary (.ident "i") .less (.integerLit 3)

/-- Body of the C3 example loop. -/
def axoLoopBody : List Stmt :=
  [.exprStmt (.assignE "i" (.binary (.ident "i") .add (.integerLit 2)))]

/-- Environment of the C3 example: `i` declared int, value 0. -/
def axoLoopEnv : Environment :=
  [[("i", { value := .vInt 0, type := "int", isConst := false })]]

/-- Full C3 example program: declare `i = 0`, then the loop. -/
def axoLoopProg : List Stmt :=
  [.varDecl "i" "int" (some (.integerLit 0)), .whileStmt axoLoopCond axoLoopBody]

/-- Interpreter state during the C3 example loop: `i` holds `iv`, and the
scratch slots record the last read of `i` at value `lastV`. -/
def axoLoopState (iv lastV : Int) : InterpState :=
  { initState [] with
    env := [[("i", { value := .vInt iv, type := "int", isConst := false })]],
    lastVariable := { value := .vInt lastV, type := "int", isConst := false },
    lastVariableName := "i" }

/-- Scenario D case list of C6:
`case 1: print("a"); case 2: print("b"); break; default: print("c");`. -/
def axoSwitchCases : List CaseClause :=
  [ .mk false (.integerLit 1) [.exprStmt (.callE "print" [.stringLit "a"])]
  , .mk false (.integerLit 2) [.exprStmt (.callE "print" [.stringLit "b"]), .breakStmt]
  , .mk true (.integerLit 0) [.exprStmt (.callE "print" [.stringLit "c"])] ]

/-- Scenario D program of C6. -/
def axoSwitchProg : List Stmt :=
  [.switchStmt (.integerLit 1) axoSwitchCases]

/-- Pure case valuation of the Scenario D case list. -/
def axoSwitchLit (c : CaseClause) : Value :=
  match c.value with
  | .integerLit n => .vInt n
  | _ => .vInt 0

/-- Example program of C8: a union-typed variable read under typeof. -/
def axoTypeofProg : List Stmt :=
  [.varDecl "x" "int|string" (some (.integerLit 1)),
   .exprStmt (.callE "print" [.unary .typeofOp (.ident "x")])]

/-- Example program of C10: user functions whose bodies return the
strings 42 and true; the callers observe Int 42 and Bool true. -/
def axoStrRetProg : List Stmt :=
  [.funcDecl "f" [] [.returnStmt (some (.stringLit "42"))],
   .varDecl "y" "any" (some (.callE "f" [])),
   .funcDecl "g" [] [.returnStmt (some (.stringLit "true"))],
   .varDecl "z" "any" (some (.callE "g" []))]

/-- Function body of f in the C10 example. -/
def axoFDef : FuncDef :=
  { params := [], body := [.returnStmt (some (.stringLit "42"))] }

/-- Function body of g in the C10 example. -/
def axoGDef : FuncDef :=
  { params := [], body := [.returnStmt (some (.stringLit "true"))] }

/-- C10 example state after declaring f. -/
def axoStrRetS1 : InterpState :=
  { initState [] with
    functions := [("f", 0)]
    funcTable := [axoFDef]
    env := [[("f", { value := .vFuncRef 0, type := "function", isConst := false })]] }

/-- C10 example state after evaluating `var y: any = f();`: the body
returned the string 42 and the caller re-parsed it as Int 42.  The call
leaves one leaked scope frame behind (the body block frame is not popped
on the Return signal, and the call pops only once), so `y` is defined in
that leaked frame. -/
def axoStrRetS2 : InterpState :=
  { axoStrRetS1 with
    env := [[("y", { value := .vInt 42, type := "any", isConst := false })],
            [("f", { value := .vFuncRef 0, type := "function", isConst := false })]]
    lastValue := .vStr "42" }

/-- C10 example state after declaring g. -/
def axoStrRetS3 : InterpState :=
  { axoStrRetS2 with
    functions := [("f", 0), ("g", 1)]
    funcTable := [axoFDef, axoGDef]
    env := [[("g", { value := .vFuncRef 1, type := "function", isConst := false }),
             ("y", { value := .vInt 42, type := "any", isConst := false })],
            [("f", { value := .vFuncRef 0, type := "function", isConst := false })]] }

/-- C10 example state after evaluating `var z: any = g();`: the body
returned the string true and the caller re-parsed it as Bool true; one
more frame has leaked. -/
def axoStrRetS4 : InterpState :=
  { axoStrRetS3 with
    env := [[("z", { value := .vBool true, type := "any", isConst := false })],
            [("g", { value := .vFuncRef 1, type := "function", isConst := false }),
             ("y", { value := .vInt 42, type := "any", isConst := false })],
            [("f", { value := .vFuncRef 0, type := "function", isConst := false })]]
    lastValue := .vStr "true" }

/-- Example module of C7: exports `a = 5` under the name a. -/
def axoModuleProg : List Stmt :=
  [.varDecl "a" "int" (some (.integerLit 5)), .exportNamed ["a"]]

/-- Example filesystem of C7: one module under the resolved path m.axo. -/
def axoFiles : List (String × List Stmt) :=
  [("m.axo", axoModuleProg)]

/-- Example import statement of C7. -/
def axoImportStmt : Stmt :=
  .importDecl "m.axo" "" ["a"]

/-- First-import state of the C7 example: the module m.axo ran (binding
a = 5 and exporting it), the path is recorded, and the named import bound
a as a const any variable. -/
def axoImpS1 : InterpState :=
  { initState axoFiles with
    env := [[("a", { value := .vInt 5, type := "any", isConst := true })]]
    importedFiles := ["m.axo"]
    moduleExports := [("m.axo", [("a", .vInt 5)])] }

/-- C9: integer division and remainder are unguarded.  For both-Int
operands of `/` and `%`, `performBinaryOp` computes the C++ truncating
quotient or remainder directly; a zero right operand reaches the hardware
division - the undefined-behaviour outcome - on a path with no type
error, no bounds error, and no catchable throw. -/
theorem claim_C9_unguarded_int_division (l r : Int) :
    performBinaryOp (.vInt l) .divide (.vInt r) =
      (if r = 0 then .intDivByZero else .okv (.vInt (Int.tdiv l r))) ∧
    performBinaryOp (.vInt l) .modulo (.vInt r) =
      (if r = 0 then .intDivByZero else .okv (.vInt (Int.tmod l r))) :=
  ⟨rfl, rfl⟩

/-- C2 is refuted by the code: executing `try { throw 1; } catch (e) {}`
from the initial one-frame environment ends normally with scope depth
two, because `executeBlock` skips its `popScope` when the throw signal
exits the try block.  The spec requires depth one. -/
theorem claim_C2_scope_leak :
    (initState []).env.length = 1 ∧
    okDepth (execStmts 40 axoTryLeakProg (initState [])) = some 2 := by
  decide

/-- State replacement keeps the outcome constructor. -/
theorem Res.state_withState {α : Type} (r : Res α) (s2 : InterpState) :
    (r.withState s2).state = s2 := by
  cases r <;> rfl

/-- State replacement keeps the crash classification. -/
theorem Res.isCrash_withState {α : Type} (r : Res α) (s2 : InterpState) :
    (r.withState s2).isCrash = r.isCrash := by
  cases r <;> rfl

/-- The inlined try arm of the statement visitor is the standalone
`visitTry` applied to the block computations: the two transcriptions of
interpreter.cpp lines 2147-2197 agree. -/
theorem execStmt_tryStmt_eq_visitTry (fuel : Nat) (tb : List Stmt) (cv : String)
    (cb fb : Option (List Stmt)) (s : InterpState) :
    execStmt (fuel + 1) (.tryStmt tb cv cb fb) s =
      visitTry (execBlock fuel tb) cv (cb.map (fun b => execBlock fuel b))
        (fb.map (fun b => execBlock fuel b)) s := by
  cases cb <;> cases fb <;> rfl

/-- C5: the finally block runs exactly once on every exit of the try
block.  Instrumentation: the finally computation always completes
normally and appends the marker line exactly once; the try block and the
catch clause never crash and never print the marker.  Then for every
outcome of the try block - normal completion, a user throw (caught or
re-raised by the catch clause, itself exiting by any signal), or a
Return, Break, or Continue signal - the try statement does not crash and
its final output holds exactly one more marker line. -/
theorem claim_C5_finally_once (tok : String) (runB : InterpState → Res Unit) (cv : String)
    (runCatch : Option (InterpState → Res Unit)) (runF : InterpState → Res Unit)
    (hB : PreservesCount tok runB)
    (hC : ∀ c, runCatch = some c → PreservesCount tok c)
    (hF : EmitsOnce tok runF) (s : InterpState) :
    (visitTry runB cv runCatch (some runF) s).isCrash = false ∧
    outCount tok (visitTry runB cv runCatch (some runF) s).state = outCount tok s + 1 := by
  obtain ⟨hBc, hBn⟩ := hB s
  cases hru : runB s with
  | ok a s1 =>
    rw [hru] at hBn
    simp only [Res.state] at hBn
    obtain ⟨s2, hfs, hcount⟩ := hF s1
    refine ⟨?_, ?_⟩
    · simp only [visitTry, hru, hfs, Res.isCrash]
    · simp only [visitTry, hru, hfs, Res.state]
      omega
  | ret v s1 =>
    rw [hru] at hBn
    simp only [Res.state] at hBn
    obtain ⟨s2, hfs, hcount⟩ := hF s1
    refine ⟨?_, ?_⟩
    · simp only [visitTry, hru, Res.state, hfs, Res.withState, Res.isCrash]
    · simp only [visitTry, hru, Res.state, hfs, Res.withState]
      omega
  | brk s1 =>
    rw [hru] at hBn
    simp only [Res.state] at hBn
    obtain ⟨s2, hfs, hcount⟩ := hF s1
    refine ⟨?_, ?_⟩
    · simp only [visitTry, hru, Res.state, hfs, Res.withState, Res.isCrash]
    · simp only [visitTry, hru, Res.state, hfs, Res.withState]
      omega
  | cont s1 =>
    rw [hru] at hBn
    simp only [Res.state] at hBn
    obtain ⟨s2, hfs, hcount⟩ := hF s1
    refine ⟨?_, ?_⟩
    · simp only [visitTry, hru, Res.state, hfs, Res.withState, Res.isCrash]
    · simp only [visitTry, hru, Res.state, hfs, Res.withState]
      omega
  | thrown v s1 =>
    rw [hru] at hBn
    simp only [Res.state] at hBn
    cases runCatch with
    | none =>
      obtain ⟨s2, hfs, hcount⟩ := hF s1
      refine ⟨?_, ?_⟩
      · simp only [visitTry, hru, hfs, Res.isCrash]
      · simp only [visitTry, hru, hfs, Res.state]
        omega
    | some c =>
      obtain ⟨hCc, hCn⟩ := hC c rfl
        { s1 with env := (if cv != "" then
            envDefine (envPushScope s1.env) cv { value := v, type := "any", isConst := false }
          else envPushScope s1.env) }
      cases hrc : c { s1 with env := (if cv != "" then
          envDefine (envPushScope s1.env) cv { value := v, type := "any", isConst := false }
        else envPushScope s1.env) } with
      | ok a3 s3 =>
        rw [hrc] at hCn
        simp only [Res.state] at hCn
        obtain ⟨s5, hfs, hcount⟩ := hF { s3 with env := envPopScope s3.env }
        refine ⟨?_, ?_⟩
        · simp only [visitTry, hru, hrc, hfs, Res.isCrash]
        · simp only [visitTry, hru, hrc, hfs, Res.state]
          have h1 : outCount tok { s1 with env := (if cv != "" then
              envDefine (envPushScope s1.env) cv { value := v, type := "any", isConst := false }
            else envPushScope s1.env) } = outCount tok s1 := rfl
          have h2 : outCount tok { s3 with env := envPopScope s3.env } = outCount tok s3 := rfl
          omega
      | ret v3 s3 =>
        rw [hrc] at hCn
        simp only [Res.state] at hCn
        obtain ⟨s5, hfs, hcount⟩ := hF { s3 with env := envPopScope s3.env }
        refine ⟨?_, ?_⟩
        · simp only [visitTry, hru, hrc, Res.state, hfs, Res.withState, Res.isCrash]
        · simp only [visitTry, hru, hrc, Res.state, hfs, Res.withState]
          have h1 : outCount tok { s1 with env := (if cv != "" then
              envDefine (envPushScope s1.env) cv { value := v, type := "any", isConst := false }
            else envPushScope s1.env) } = outCount tok s1 := rfl
          have h2 : outCount tok { s3 with env := envPopScope s3.env } = outCount tok s3 := rfl
          omega
      | brk s3 =>
        rw [hrc] at hCn
        simp only [Res.state] at hCn
        obtain ⟨s5, hfs, hcount⟩ := hF { s3 with env := envPopScope s3.env }
        refine ⟨?_, ?_⟩
        · simp only [visitTry, hru, hrc, Res.state, hfs, Res.withState, Res.isCrash]
        · simp only [visitTry, hru, hrc, Res.state, hfs, Res.withState]
          have h1 : outCount tok { s1 with env := (if cv != "" then
              envDefine (envPushScope s1.env) cv { value := v, type := "any", isConst := false }
            else envPushScope s1.env) } = outCount tok s1 := rfl
          have h2 : outCount tok { s3 with env := envPopScope s3.env } = outCount tok s3 := rfl
          omega
      | cont s3 =>
        rw [hrc] at hCn
        simp only [Res.state] at hCn
        obtain ⟨s5, hfs, hcount⟩ := hF { s3 with env := envPopScope s3.env }
        refine ⟨?_, ?_⟩
        · simp only [visitTry, hru, hrc, Res.state, hfs, Res.withState, Res.isCrash]
        · simp only [visitTry, hru, hrc, Res.state, hfs, Res.withState]
          have h1 : outCount tok { s1 with env := (if cv != "" then
              envDefine (envPushScope s1.env) cv { value := v, type := "any", isConst := false }
            else envPushScope s1.env) } = outCount tok s1 := rfl
          have h2 : outCount tok { s3 with env := envPopScope s3.env } = outCount tok s3 := rfl
          omega
      | thrown v3 s3 =>
        rw [hrc] at hCn
        simp only [Res.state] at hCn
        obtain ⟨s5, hfs, hcount⟩ := hF { s3 with env := envPopScope s3.env }
        refine ⟨?_, ?_⟩
        · simp only [visitTry, hru, hrc, Res.state, hfs, Res.withState, Res.isCrash]
        · simp only [visitTry, hru, hrc, Res.state, hfs, Res.withState]
          have h1 : outCount tok { s1 with env := (if cv != "" then
              envDefine (envPushScope s1.env) cv { value := v, type := "any", isConst := false }
            else envPushScope s1.env) } = outCount tok s1 := rfl
          have h2 : outCount tok { s3 with env := envPopScope s3.env } = outCount tok s3 := rfl
          omega
      | fatal m s3 =>
        rw [hrc] at hCc
        cases hCc
      | undef m s3 =>
        rw [hrc] at hCc
        cases hCc
      | outOfFuel s3 =>
        rw [hrc] at hCc
        cases hCc
  | fatal m s1 =>
    rw [hru] at hBc
    cases hBc
  | undef m s1 =>
    rw [hru] at hBc
    cases hBc
  | outOfFuel s1 =>
    rw [hru] at hBc
    cases hBc

/-- Witness for C5: a throw caught by an empty catch clause, with a
finally computation that appends the marker line f. -/
theorem claim_C5_finally_once_witness :
    (visitTry (fun s => .thrown (.vInt 1) s) "e" (some (fun s => .ok () s))
        (some (fun s => .ok () { s with output := s.output ++ ["f"] }))
        (initState [])).isCrash = false ∧
    outCount "f" (visitTry (fun s => .thrown (.vInt 1) s) "e" (some (fun s => .ok () s))
        (some (fun s => .ok () { s with output := s.output ++ ["f"] }))
        (initState [])).state = outCount "f" (initState []) + 1 :=
  claim_C5_finally_once "f" (fun s => .thrown (.vInt 1) s) "e" (some (fun s => .ok () s))
    (fun s => .ok () { s with output := s.output ++ ["f"] })
    (fun s => ⟨rfl, rfl⟩)
    (fun c hc => by
      cases hc
      exact fun s => ⟨rfl, rfl⟩)
    (fun s => ⟨{ s with output := s.output ++ ["f"] }, rfl, by
      simp [outCount, List.count_append]⟩)
    (initState [])

/-- Once the fall-through flags are set, the case loop runs every
remaining body in order (case values still evaluate, but pure values
leave no trace), stopping only at a raised signal: it coincides with the
plain body-runner over the remaining cases. -/
theorem runSwitchCases_fallthrough (evalV : Expr → InterpState → Res Value)
    (runStmts : List Stmt → InterpState → Res Unit) (d : Value) (lit : CaseClause → Value) :
    ∀ (cases : List CaseClause),
      (∀ c ∈ cases, c.isDefault = false → ∀ s, evalV c.value s = .ok (lit c) s) →
      ∀ s, runSwitchCases evalV runStmts d true true cases s = runSelected runStmts cases s := by
  intro cases
  induction cases with
  | nil => intro _ s; rfl
  | cons c cs ih =>
    intro hPure s
    have hTail : ∀ c2 ∈ cs, c2.isDefault = false → ∀ s2, evalV c2.value s2 = .ok (lit c2) s2 :=
      fun c2 hc2 => hPure c2 (List.mem_cons_of_mem _ hc2)
    cases hD : c.isDefault with
    | true =>
      simp only [runSwitchCases, hD, runSelected, Bool.not_true, Bool.false_or, if_true]
      cases hr : runStmts c.body s
      case ok => simp only [Res.andThen]; exact ih hTail _
      all_goals simp [Res.andThen]
    | false =>
      have hv := hPure c (List.mem_cons_self c cs) hD s
      simp only [runSwitchCases, hD, hv, runSelected, Res.andThen, Bool.or_true, if_true]
      cases hr : runStmts c.body s
      case ok => simp only [Res.andThen]; exact ih hTail _
      all_goals simp [Res.andThen]

/-- The case loop of the switch visitor, started with cleared flags,
computes exactly the reference semantics: skip cases until the first
eligible one (a default, or a value whose string form equals the
discriminant string form), then fall through every subsequent body. -/
theorem runSwitchCases_matches_ref (evalV : Expr → InterpState → Res Value)
    (runStmts : List Stmt → InterpState → Res Unit) (d : Value) (lit : CaseClause → Value) :
    ∀ (cases : List CaseClause),
      (∀ c ∈ cases, c.isDefault = false → ∀ s, evalV c.value s = .ok (lit c) s) →
      ∀ s, runSwitchCases evalV runStmts d false false cases s =
        switchRefRun runStmts (valueToString d) lit cases s := by
  intro cases
  induction cases with
  | nil => intro _ s; rfl
  | cons c cs ih =>
    intro hPure s
    have hTail : ∀ c2 ∈ cs, c2.isDefault = false → ∀ s2, evalV c2.value s2 = .ok (lit c2) s2 :=
      fun c2 hc2 => hPure c2 (List.mem_cons_of_mem _ hc2)
    cases hD : c.isDefault with
    | true =>
      simp only [runSwitchCases, hD, switchRefRun, runSelected, Bool.not_false, Bool.true_or,
        if_true]
      cases hr : runStmts c.body s
      case ok => simp only [Res.andThen]; exact runSwitchCases_fallthrough evalV runStmts d lit cs hTail _
      all_goals simp [Res.andThen]
    | false =>
      have hv := hPure c (List.mem_cons_self c cs) hD s
      simp only [runSwitchCases, hD, hv, switchRefRun, Res.andThen, Bool.or_false]
      cases hM : valueToString d == valueToString (lit c) with
      | true =>
        simp only [if_true, runSelected]
        cases hr : runStmts c.body s
        case ok => simp only [Res.andThen]; exact runSwitchCases_fallthrough evalV runStmts d lit cs hTail _
        all_goals simp [Res.andThen]
      | false =>
        simp only [Bool.false_eq_true, if_false]
        exact ih hTail s

/-- C6: the switch statement compares the discriminant with each case
value by string form in source order; from the first eligible case
(first string-form match, or a default reached with no prior match)
execution falls through every subsequent body - defaults included -
until a Break signal or the end of the switch: the visitor loop equals
the reference fall-through semantics for every switch whose case values
evaluate purely.  In particular, Scenario D prints a then b and not c. -/
theorem claim_C6_switch_fallthrough :
    (∀ (evalV : Expr → InterpState → Res Value)
       (runStmts : List Stmt → InterpState → Res Unit)
       (d : Value) (lit : CaseClause → Value) (cases : List CaseClause),
       (∀ c ∈ cases, c.isDefault = false → ∀ s, evalV c.value s = .ok (lit c) s) →
       ∀ s, runSwitchCases evalV runStmts d false false cases s =
         switchRefRun runStmts (valueToString d) lit cases s) ∧
    (match execStmts 40 axoSwitchProg (initState []) with
     | .ok _ s => some s.output
     | _ => none) = some ["a", "b"] := by
  refine ⟨?_, by decide⟩
  intro evalV runStmts d lit cases hPure s
  exact runSwitchCases_matches_ref evalV runStmts d lit cases hPure s

/-- Witness for C6: the Scenario D case list with discriminant 1,
evaluated by the interpreter at fuel 30, equals the reference
fall-through run. -/
theorem claim_C6_switch_fallthrough_witness :
    runSwitchCases (evalExpr 30) (execStmts 30) (.vInt 1) false false axoSwitchCases
      (initState []) =
    switchRefRun (execStmts 30) (valueToString (.vInt 1)) axoSwitchLit axoSwitchCases
      (initState []) := by
  refine claim_C6_switch_fallthrough.1 (evalExpr 30) (execStmts 30) (.vInt 1) axoSwitchLit
    axoSwitchCases ?_ (initState [])
  intro c hc hd s
  simp only [axoSwitchCases, List.mem_cons, List.mem_singleton, List.not_mem_nil, or_false] at hc
  rcases hc with rfl | rfl | rfl
  · rfl
  · rfl
  · simp [CaseClause.isDefault] at hd

/-- One-step unfolding of the interpreted while loop. -/
theorem whileLoop_succ (fuel : Nat) (cond : Expr) (body : List Stmt) (s : InterpState) :
    whileLoop (fuel + 1) cond body s =
      (evalExpr fuel cond s).andThen fun c s1 =>
        if isTruthy c then
          match execBlock fuel body s1 with
          | .ok _ s2 => whileLoop fuel cond body s2
          | .brk s2 => .ok () s2
          | .cont s2 => whileLoop fuel cond body s2
          | r => r
        else .ok () s1 := rfl

/-- First iteration of the C3 example loop under interpretation. -/
theorem axoLoop_interp_step0 :
    whileLoop 12 axoLoopCond axoLoopBody { initState [] with env := axoLoopEnv } =
      whileLoop 11 axoLoopCond axoLoopBody (axoLoopState 2 0) := by
  have h1 : evalExpr 11 axoLoopCond { initState [] with env := axoLoopEnv } =
      .ok (.vBool true) (axoLoopState 0 0) := rfl
  have h2 : execBlock 11 axoLoopBody (axoLoopState 0 0) = .ok () (axoLoopState 2 0) := rfl
  rw [whileLoop_succ, h1]
  simp [Res.andThen, isTruthy, h2]

/-- Second iteration of the C3 example loop under interpretation. -/
theorem axoLoop_interp_step1 :
    whileLoop 11 axoLoopCond axoLoopBody (axoLoopState 2 0) =
      whileLoop 10 axoLoopCond axoLoopBody (axoLoopState 4 2) := by
  have h1 : evalExpr 10 axoLoopCond (axoLoopState 2 0) =
      .ok (.vBool true) (axoLoopState 2 2) := rfl
  have h2 : execBlock 10 axoLoopBody (axoLoopState 2 2) = .ok () (axoLoopState 4 2) := rfl
  rw [whileLoop_succ, h1]
  simp [Res.andThen, isTruthy, h2]

/-- Exit of the C3 example loop under interpretation: the condition
4 < 3 fails and the loop completes with `i = 4`. -/
theorem axoLoop_interp_done :
    whileLoop 10 axoLoopCond axoLoopBody (axoLoopState 4 2) = .ok () (axoLoopState 4 4) := by
  have h1 : evalExpr 9 axoLoopCond (axoLoopState 4 2) =
      .ok (.vBool false) (axoLoopState 4 4) := rfl
  rw [whileLoop_succ, h1]
  simp [Res.andThen, isTruthy]

/-- C3 is refuted by the code: the loop `while (i < 3) { i = i + 2; }`
from `i = 0` is accepted by `isCompilable`, and `compileAndExecute`
writes back `i = 6` (it multiplies the step by `limit - start`
iterations, assuming step one), while the interpreted loop produces
`i = 4`; the full while visitor takes the fast path, so the divergent
value is the observable one. -/
theorem claim_C3_fastpath_diverges :
    isCompilableWhile axoLoopCond axoLoopBody = true ∧
    (match compileAndExecuteWhile 40 [] axoLoopCond axoLoopBody axoLoopEnv with
     | some e => envGetInt e "i"
     | none => none) = some 6 ∧
    (match whileLoop 12 axoLoopCond axoLoopBody { initState [] with env := axoLoopEnv } with
     | .ok _ s => envGetInt s.env "i"
     | _ => none) = some 4 ∧
    (match execStmts 40 axoLoopProg (initState []) with
     | .ok _ s => envGetInt s.env "i"
     | _ => none) = some 6 := by
  refine ⟨by decide, by decide, ?_, by decide⟩
  rw [axoLoop_interp_step0, axoLoop_interp_step1, axoLoop_interp_done]
  decide

/-- C1 as stated is false at this input: the declared spec of `x`
contains an open brace (a complex spec per the claim), the new value
Int 7 does not inhabit it, yet `Environment::set` stores the value and
succeeds - the write gate tests only for a bar, an open bracket, or the
spec any, and never for braces. -/
theorem claim_C1_counterexample :
    containsChar "\x7ba:int\x7d" lbraceC = true ∧
    valueMatchesType 40 [] (.vInt 7) "\x7ba:int\x7d" = false ∧
    (match envSet 40 []
        [[("x", { value := .vObj [("a", .vInt 1)], type := "\x7ba:int\x7d", isConst := false })]]
        "x" (.vInt 7) with
     | .ok e => envGetInt e "x"
     | .error _ => none) = some 7 := by
  refine ⟨by decide, by decide, by decide⟩

/-- C4 as stated is false at this input: `[int]|[string]` has a
top-level bar and its branch `[int]` accepts the array `[1]`, yet the
matcher rejects the union - the array-form branch fires first on any
spec that starts with an open bracket and ends with a close bracket, so
the union split is never reached. -/
theorem claim_C4_counterexample :
    hasTopLevelBar "[int]|[string]" = true ∧
    valueMatchesType 40 [] (.vArr [.vInt 1]) "[int]" = true ∧
    valueMatchesType 40 [] (.vArr [.vInt 1]) "[int]|[string]" = false := by
  refine ⟨by decide, by decide, by decide⟩

/-- Updating a binding in place commutes with scope lookup. -/
theorem scopeFind_scopeUpdateValue (sc : Scope) (name : String) (v : Value) :
    scopeFind (scopeUpdateValue sc name v) name =
      (scopeFind sc name).map (fun w => { w with value := v }) := by
  induction sc with
  | nil => rfl
  | cons p rest ih =>
    obtain ⟨k, w⟩ := p
    cases h : k == name with
    | true => simp [scopeUpdateValue, scopeFind, h]
    | false => simp [scopeUpdateValue, scopeFind, h, ih]

/-- C1 amended: `Environment::set` fails with the type error naming the
variable and its declared spec exactly when the nearest binding has a
declared spec that is non-empty and contains a bar, contains an open
bracket, or equals any (braces play no part in the gate), and the value
fails the matcher; in every other case - including object-shape specs
with braces only - the value is stored unconditionally into the nearest
binding; with no binding the write is the undefined-variable error. -/
theorem claim_C1_set_complex_gate (fuel : Nat) (reg : TypeReg) (env : Environment)
    (name : String) (v : Value) :
    (envGet env name = none →
      envSet fuel reg env name v = .error ("Undefined variable: " ++ name)) ∧
    (∀ var, envGet env name = some var →
      ((!var.type.isEmpty &&
          (containsChar var.type '|' || containsChar var.type '[' || var.type == "any")) = true →
        valueMatchesType fuel reg v var.type = false →
        envSet fuel reg env name v = .error ("Type error: cannot assign value to variable '" ++
          name ++ "' of type '" ++ var.type ++ "'")) ∧
      ((!var.type.isEmpty &&
          (containsChar var.type '|' || containsChar var.type '[' || var.type == "any")) = false ∨
          valueMatchesType fuel reg v var.type = true →
        ∃ env2, envSet fuel reg env name v = .ok env2 ∧
          envGet env2 name = some { var with value := v })) := by
  induction env with
  | nil =>
    refine ⟨fun _ => rfl, fun var hvar => ?_⟩
    simp [envGet] at hvar
  | cons sc rest ih =>
    cases h : scopeFind sc name with
    | some found =>
      refine ⟨fun hnone => ?_, fun var hvar => ?_⟩
      · simp [envGet, h] at hnone
      · simp only [envGet, h] at hvar
        cases hvar
        constructor
        · intro hg hm
          simp [envSet, h, setGate, hg, hm]
        · intro hok
          refine ⟨scopeUpdateValue sc name v :: rest, ?_, ?_⟩
          · rcases hok with hg | hm
            · simp [envSet, h, setGate, hg]
            · simp [envSet, h, setGate, hm]
          · simp [envGet, scopeFind_scopeUpdateValue, h]
    | none =>
      refine ⟨fun hnone => ?_, fun var hvar => ?_⟩
      · simp only [envGet, h] at hnone
        simp [envSet, h, ih.1 hnone, Except.map]
      · simp only [envGet, h] at hvar
        obtain ⟨herr, hstore⟩ := ih.2 var hvar
        constructor
        · intro hg hm
          simp [envSet, h, herr hg hm, Except.map]
        · intro hok
          obtain ⟨env2, henv2, hget⟩ := hstore hok
          exact ⟨sc :: env2, by simp [envSet, h, henv2, Except.map], by simp [envGet, h, hget]⟩

/-- Witness for the amended C1: a union-typed binding rejects a
non-member value through the gate. -/
theorem claim_C1_set_complex_gate_witness :
    envSet 40 [] [[("s", { value := .vInt 1, type := "int|string", isConst := false })]]
      "s" (.vBool true) =
      .error "Type error: cannot assign value to variable 's' of type 'int|string'" :=
  ((claim_C1_set_complex_gate 40 []
      [[("s", { value := .vInt 1, type := "int|string", isConst := false })]]
      "s" (.vBool true)).2
    { value := .vInt 1, type := "int|string", isConst := false } rfl).1 (by decide) (by decide)

/-- C4 amended: the union branch of the matcher fires only when the
trimmed spec is non-empty, is not a registered alias, does not have the
bracketed array form, and does not have the braced object form; it then
splits at every bar - `splitUnion` is nesting-blind - and accepts when
any piece accepts with the remaining fuel. -/
theorem claim_C4_naive_union_split (fuel : Nat) (reg : TypeReg) (v : Value) (t : String)
    (h1 : (trimAxo t).isEmpty = false)
    (h2 : regLookup reg (trimAxo t) = none)
    (h3 : isBracketForm (trimAxo t).data '[' ']' = false)
    (h4 : isBracketForm (trimAxo t).data lbraceC rbraceC = false)
    (h5 : containsChar (trimAxo t) '|' = true) :
    valueMatchesType (fuel + 1) reg v t = vmtAny fuel reg v (splitUnion (trimAxo t)) := by
  simp [valueMatchesType, h1, h2, h3, h4, h5]

/-- Witness for the amended C4 at the spec `int|string`. -/
theorem claim_C4_naive_union_split_witness :
    valueMatchesType 41 [] (.vStr "ok") "int|string" =
      vmtAny 40 [] (.vStr "ok") (splitUnion (trimAxo "int|string")) ∧
    vmtAny 40 [] (.vStr "ok") (splitUnion (trimAxo "int|string")) = true :=
  ⟨claim_C4_naive_union_split 40 [] (.vStr "ok") "int|string"
      (by decide) (by decide) (by decide) (by decide) (by decide),
    by decide⟩

/-- Strings that differ in bar membership are unequal under `==`. -/
theorem beq_false_of_bar (d lit : String) (hd : containsChar d '|' = true)
    (hl : containsChar lit '|' = false) : (d == lit) = false := by
  cases h : d == lit with
  | false => rfl
  | true =>
    cases eq_of_beq h
    rw [hd] at hl
    cases hl

/-- C8 amended: for an identifier whose declared type is not a registered
alias, contains a bar, and is not a bracketed array spec - a union type
such as `int|string` - `typeof` falls through to the runtime tag name
of the current value; the declared type string itself is never
returned for such specs. -/
theorem claim_C8_typeof_union_fallback (s : InterpState) (v : Value)
    (hn : s.lastVariableName.isEmpty = false)
    (ht : s.lastVariable.type.isEmpty = false)
    (hAlias : regLookup s.typeRegistry s.lastVariable.type = none)
    (hBar : containsChar s.lastVariable.type '|' = true)
    (hBr : isBracketForm s.lastVariable.type.data '[' ']' = false) :
    getTypeOfValue s v = runtimeTagName v := by
  have e1 := beq_false_of_bar s.lastVariable.type "int" hBar (by decide)
  have e2 := beq_false_of_bar s.lastVariable.type "float" hBar (by decide)
  have e3 := beq_false_of_bar s.lastVariable.type "string" hBar (by decide)
  have e4 := beq_false_of_bar s.lastVariable.type "bool" hBar (by decide)
  have e5 := beq_false_of_bar s.lastVariable.type "function" hBar (by decide)
  have e6 := beq_false_of_bar s.lastVariable.type "object" hBar (by decide)
  simp [getTypeOfValue, hn, ht, hAlias, hBar, hBr, e1, e2, e3, e4, e5, e6]

/-- Witness for the amended C8: the state after reading `x` declared
`int|string` holding Int 1 makes typeof produce the runtime tag int. -/
theorem claim_C8_typeof_union_fallback_witness :
    getTypeOfValue
      { initState [] with
        lastVariable := { value := .vInt 1, type := "int|string", isConst := false },
        lastVariableName := "x" } (.vInt 1) = runtimeTagName (.vInt 1) :=
  claim_C8_typeof_union_fallback
    { initState [] with
      lastVariable := { value := .vInt 1, type := "int|string", isConst := false },
      lastVariableName := "x" } (.vInt 1)
    (by decide) (by decide) (by decide) (by decide) (by decide)

/-- Decimal digits are not in the C-locale whitespace set. -/
theorem isCSpace_eq_false_of_isDigit (c : Char) (h : c.isDigit = true) : isCSpace c = false := by
  cases hc : isCSpace c with
  | false => rfl
  | true =>
    exfalso
    simp only [isCSpace, Bool.or_eq_true, decide_eq_true_eq] at hc
    rcases hc with ((((h1 | h1) | h1) | h1) | h1) | h1 <;>
      (subst h1; exact absurd h (by decide))

/-- An all-digits character list survives the whitespace skip intact. -/
theorem dropWhile_cspace_of_digits (l : List Char) (h : l.all Char.isDigit = true) :
    l.dropWhile isCSpace = l := by
  cases l with
  | nil => rfl
  | cons c cs =>
    simp only [List.all_cons, Bool.and_eq_true] at h
    simp [List.dropWhile_cons, isCSpace_eq_false_of_isDigit c h.1]

/-- An all-digits character list is consumed whole by the digit run. -/
theorem takeWhile_digits_self (l : List Char) (h : l.all Char.isDigit = true) :
    l.takeWhile Char.isDigit = l := by
  induction l with
  | nil => rfl
  | cons c cs ih =>
    simp only [List.all_cons, Bool.and_eq_true] at h
    simp [List.takeWhile_cons, h.1, ih h.2]

/-- An all-digits spelling contains no dot. -/
theorem not_contains_dot_of_digits (s : String) (h : s.data.all Char.isDigit = true) :
    containsChar s '.' = false := by
  cases hc : containsChar s '.' with
  | false => rfl
  | true => exact absurd (List.all_eq_true.mp h '.' (List.elem_iff.mp hc)) (by decide)

/-- No marker string is all digits. -/
theorem markers_not_all_digits (s : String) (hdig : s.data.all Char.isDigit = true) :
    markerStrings.contains s = false := by
  cases h : markerStrings.contains s with
  | false => rfl
  | true =>
    exfalso
    have hm := List.elem_iff.mp h
    simp only [markerStrings, List.mem_cons, List.not_mem_nil, or_false] at hm
    rcases hm with rfl | rfl | rfl | rfl | rfl | rfl <;> exact absurd hdig (by decide)

/-- No marker string contains a dot. -/
theorem markers_no_dot (s : String) (hdot : containsChar s '.' = true) :
    markerStrings.contains s = false := by
  cases h : markerStrings.contains s with
  | false => rfl
  | true =>
    exfalso
    have hm := List.elem_iff.mp h
    simp only [markerStrings, List.mem_cons, List.not_mem_nil, or_false] at hm
    rcases hm with rfl | rfl | rfl | rfl | rfl | rfl <;> exact absurd hdot (by decide)

/-- A string containing a character is non-empty. -/
theorem data_ne_nil_of_containsChar (s : String) (c : Char) (h : containsChar s c = true) :
    s.data ≠ [] := by
  intro he
  rw [containsChar, he] at h
  exact Bool.noConfusion h

/-- The stoi model on a non-empty all-digits spelling within the int
range yields the digit value. -/
theorem stoi_digits (s : String) (hne : s.data ≠ [])
    (hdig : s.data.all Char.isDigit = true)
    (hbound : (digitsToNat s.data : Int) ≤ 2147483647) :
    stoiModel s = some ((digitsToNat s.data : Int)) := by
  obtain ⟨d⟩ := s
  cases d with
  | nil => exact absurd rfl hne
  | cons c cs =>
    have hdig2 : (c :: cs).all Char.isDigit = true := hdig
    have hbound2 : (digitsToNat (c :: cs) : Int) ≤ 2147483647 := hbound
    have hnn : (0 : Int) ≤ (digitsToNat (c :: cs) : Int) := Int.ofNat_nonneg _
    have hcd : c.isDigit = true := by
      simp only [List.all_cons, Bool.and_eq_true] at hdig2
      exact hdig2.1
    have hc1 : ¬(c = '-') := fun hcc => absurd (hcc ▸ hcd) (by decide)
    have hc2 : ¬(c = '+') := fun hcc => absurd (hcc ▸ hcd) (by decide)
    show stoiModel (String.mk (c :: cs)) = some ((digitsToNat (c :: cs) : Int))
    simp only [stoiModel, String.data]
    rw [dropWhile_cspace_of_digits _ hdig2]
    simp only [List.head?_cons, Option.some.injEq, hc1, hc2, decide_False,
      Bool.or_self, Bool.false_eq_true, if_false, ite_false,
      takeWhile_digits_self _ hdig2, List.isEmpty_cons, one_mul]
    rw [if_neg]
    simp only [Bool.or_eq_true, decide_eq_true_eq, not_or]
    exact ⟨by omega, by omega⟩

/-- One-step unfolding of sequential statement execution. -/
theorem execStmts_cons_eq (fuel : Nat) (st : Stmt) (rest : List Stmt) (s : InterpState) :
    execStmts (fuel + 1) (st :: rest) s =
      (execStmt fuel st s).andThen fun _ s1 => execStmts fuel rest s1 := rfl

/-- Stepped execution of the C10 example program: each statement takes
the interpreter to the next recorded literal state. -/
theorem axoStrRetProg_run :
    execStmts 40 axoStrRetProg (initState []) = .ok () axoStrRetS4 := by
  have h1 : execStmt 39 (.funcDecl "f" [] [.returnStmt (some (.stringLit "42"))])
      (initState []) = .ok () axoStrRetS1 := rfl
  have h2 : execStmt 38 (.varDecl "y" "any" (some (.callE "f" []))) axoStrRetS1 =
      .ok () axoStrRetS2 := rfl
  have h3 : execStmt 37 (.funcDecl "g" [] [.returnStmt (some (.stringLit "true"))])
      axoStrRetS2 = .ok () axoStrRetS3 := rfl
  have h4 : execStmt 36 (.varDecl "z" "any" (some (.callE "g" []))) axoStrRetS3 =
      .ok () axoStrRetS4 := rfl
  show execStmts 40 ((.funcDecl "f" [] [.returnStmt (some (.stringLit "42"))]) ::
      [.varDecl "y" "any" (some (.callE "f" [])),
       .funcDecl "g" [] [.returnStmt (some (.stringLit "true"))],
       .varDecl "z" "any" (some (.callE "g" []))]) (initState []) = .ok () axoStrRetS4
  rw [execStmts_cons_eq, h1]
  simp only [Res.andThen]
  rw [execStmts_cons_eq, h2]
  simp only [Res.andThen]
  rw [execStmts_cons_eq, h3]
  simp only [Res.andThen]
  rw [execStmts_cons_eq, h4]
  simp only [Res.andThen]
  rfl

/-- C10: expression results travel between visitor nodes as strings and
are re-parsed by evaluate.  For non-marker results: true and false become
bools; a non-empty all-digits spelling in int range becomes that Int; a
spelling with a dot that the stof model parses becomes a Float of that
value; and a result that stays a string is empty or unparseable by the
attempted conversion.  Consequently a user function whose body returns
the string 42 is observed by its caller as Int 42, and one returning the
string true as Bool true. -/
theorem claim_C10_string_reparse :
    (∀ last, toValue "true" last = .vBool true ∧ toValue "false" last = .vBool false) ∧
    (∀ (s : String) (last : Value), s.data ≠ [] → s.data.all Char.isDigit = true →
      (digitsToNat s.data : Int) ≤ 2147483647 →
      toValue s last = .vInt (digitsToNat s.data)) ∧
    (∀ (s : String) (last : Value) (q : Rat), containsChar s '.' = true →
      stofModel s = some q → toValue s last = .vFloat q) ∧
    (∀ (s : String) (last : Value), markerStrings.contains s = false →
      toValue s last = .vStr s →
      s.data = [] ∨ (containsChar s '.' = true ∧ stofModel s = none) ∨
        (containsChar s '.' = false ∧ stoiModel s = none)) ∧
    ((match execStmts 40 axoStrRetProg (initState []) with
      | .ok _ st => (envGetInt st.env "y", envGetBool st.env "z")
      | _ => (none, none)) = (some 42, some true)) := by
  refine ⟨fun last => ⟨rfl, rfl⟩, ?_, ?_, ?_, by rw [axoStrRetProg_run]; decide⟩
  · intro s last hne hdig hbound
    have hm := markers_not_all_digits s hdig
    have hE : s.data.isEmpty = false := by
      simp [List.isEmpty_iff]
      exact hne
    have hT : (s == "true") = false := by
      cases hb : s == "true" with
      | false => rfl
      | true =>
        rw [eq_of_beq hb] at hdig
        exact absurd hdig (by decide)
    have hF : (s == "false") = false := by
      cases hb : s == "false" with
      | false => rfl
      | true =>
        rw [eq_of_beq hb] at hdig
        exact absurd hdig (by decide)
    have hD : containsChar s '.' = false := not_contains_dot_of_digits s hdig
    simp only [toValue, hm, hE, hT, hF, hD, Bool.and_false, Bool.false_eq_true, ite_false,
      stoi_digits s hne hdig hbound]
  · intro s last q hdot hstof
    have hm := markers_no_dot s hdot
    have hne := data_ne_nil_of_containsChar s '.' hdot
    have hE : s.data.isEmpty = false := by
      simp [List.isEmpty_iff]
      exact hne
    have hT : (s == "true") = false := by
      cases hb : s == "true" with
      | false => rfl
      | true =>
        rw [eq_of_beq hb] at hdot
        exact absurd hdot (by decide)
    have hF : (s == "false") = false := by
      cases hb : s == "false" with
      | false => rfl
      | true =>
        rw [eq_of_beq hb] at hdot
        exact absurd hdot (by decide)
    simp only [toValue, hm, hE, hT, hF, hdot, Bool.and_false, Bool.false_eq_true, ite_false,
      ite_true, hstof]
  · intro s last hm ht
    cases hE : s.data.isEmpty with
    | true =>
      left
      exact List.isEmpty_iff.mp hE
    | false =>
      right
      simp only [toValue, hm, hE, Bool.and_false, Bool.false_eq_true, ite_false] at ht
      cases hT : s == "true" with
      | true =>
        rw [if_pos hT] at ht
        exact absurd ht (by simp)
      | false =>
        rw [hT] at ht
        simp only [Bool.false_eq_true, ite_false] at ht
        cases hF : s == "false" with
        | true =>
          rw [if_pos hF] at ht
          exact absurd ht (by simp)
        | false =>
          rw [hF] at ht
          simp only [Bool.false_eq_true, ite_false] at ht
          cases hD : containsChar s '.' with
          | true =>
            left
            rw [if_pos hD] at ht
            refine ⟨rfl, ?_⟩
            cases hS : stofModel s with
            | some q =>
              rw [hS] at ht
              exact absurd ht (by simp)
            | none => rfl
          | false =>
            right
            rw [hD] at ht
            simp only [Bool.false_eq_true, ite_false] at ht
            refine ⟨rfl, ?_⟩
            cases hS : stoiModel s with
            | some n =>
              rw [hS] at ht
              exact absurd ht (by simp)
            | none => rfl

/-- Witness for C10: the digits spelling 42 re-parses to Int 42, and the
dotted spelling 3.5 re-parses to the Float seven halves. -/
theorem claim_C10_string_reparse_witness :
    toValue "42" (.vInt 0) = .vInt (digitsToNat "42".data) ∧
    toValue "3.5" (.vInt 0) = .vFloat (mkRat 7 2) :=
  ⟨claim_C10_string_reparse.2.1 "42" (.vInt 0) (by decide) (by decide) (by decide),
   claim_C10_string_reparse.2.2.1 "3.5" (.vInt 0) (mkRat 7 2) (by decide) (by decide)⟩

/-- C8 as stated is false at this input: `typeof x` for `x` declared
`int|string` holding Int 1 prints the runtime tag int, not the declared
spec - `getTypeOfValue` returns the declared type only for registered
aliases, tag-matching primitive names, or bracketed array specs. -/
theorem claim_C8_counterexample :
    (match execStmts 40 axoTypeofProg (initState []) with
     | .ok _ s => some s.output
     | _ => none) = some ["int"] ∧
    ("int" : String) ≠ "int|string" := by
  refine ⟨by decide, by decide⟩

theorem impLe_trans {a b c : InterpState} (h1 : impLe a b) (h2 : impLe b c) : impLe a c :=
  fun q hq => h2 q (h1 q hq)

theorem impMono_of_files {α : Type} {s : InterpState} {r : Res α}
    (h : (Res.state r).importedFiles = s.importedFiles) : ImpMono s r :=
  fun q hq => by rw [h]; exact hq

theorem impMono_ofLe {α : Type} {s t : InterpState} {r : Res α}
    (h1 : impLe s t) (h2 : ImpMono t r) : ImpMono s r :=
  fun q hq => h2 q (h1 q hq)

theorem impMono_andThen {α β : Type} {s : InterpState} {r : Res α}
    {f : α → InterpState → Res β} (h1 : ImpMono s r)
    (h2 : ∀ a s1, ImpMono s1 (f a s1)) : ImpMono s (r.andThen f) := by
  cases r with
  | ok a s1 => exact fun q hq => h2 a s1 q (h1 q hq)
  | ret v s1 => exact h1
  | brk s1 => exact h1
  | cont s1 => exact h1
  | thrown v s1 => exact h1
  | fatal m s1 => exact h1
  | undef m s1 => exact h1
  | outOfFuel s1 => exact h1

theorem impMono_ite {α : Type} {s : InterpState} {c : Prop} [Decidable c] {r1 r2 : Res α}
    (h1 : ImpMono s r1) (h2 : ImpMono s r2) : ImpMono s (if c then r1 else r2) := by
  by_cases h : c
  · rw [if_pos h]; exact h1
  · rw [if_neg h]; exact h2

theorem performUnaryOp_files (op : UnaryOperator) (v : Value) (s : InterpState)
    (v2 : Value) (s2 : InterpState) (h : performUnaryOp op v s = .ok (v2, s2)) :
    s2.importedFiles = s.importedFiles := by
  cases op <;> cases v <;> simp only [performUnaryOp] at h <;>
    first
      | exact Except.noConfusion h
      | (simp only [Except.ok.injEq, Prod.mk.injEq] at h
         rw [← h.2])

theorem foldl_proj_eq {β γ : Type} (proj : InterpState → γ) (f : InterpState → β → InterpState)
    (hf : ∀ st b, proj (f st b) = proj st) :
    ∀ (l : List β) (s : InterpState), proj (l.foldl f s) = proj s := by
  intro l
  induction l with
  | nil => intro s; rfl
  | cons b bs ih => intro s; rw [List.foldl_cons, ih, hf]

theorem defineImported_files (st : InterpState) (n : String) (v : Value) :
    (defineImported st n v).importedFiles = st.importedFiles := by
  cases v <;> rfl

theorem applyImportBindings_files (p d : String) (n : List String) (s : InterpState) :
    (applyImportBindings p d n s).importedFiles = s.importedFiles := by
  show (List.foldl (fun st p => defineImported st p.1 p.2) s
    (importBindingsAt p d n s)).importedFiles = s.importedFiles
  exact foldl_proj_eq (fun st => st.importedFiles) (fun st p => defineImported st p.1 p.2)
    (fun st b => defineImported_files st b.1 b.2) (importBindingsAt p d n s) s

theorem defineImported_exports (st : InterpState) (n : String) (v : Value) :
    (defineImported st n v).moduleExports = st.moduleExports := by
  cases v <;> rfl

theorem applyImportBindings_exports (p d : String) (n : List String) (s : InterpState) :
    (applyImportBindings p d n s).moduleExports = s.moduleExports := by
  show (List.foldl (fun st p => defineImported st p.1 p.2) s
    (importBindingsAt p d n s)).moduleExports = s.moduleExports
  exact foldl_proj_eq (fun st => st.moduleExports) (fun st p => defineImported st p.1 p.2)
    (fun st b => defineImported_exports st b.1 b.2) (importBindingsAt p d n s) s

theorem defineImported_defaults (st : InterpState) (n : String) (v : Value) :
    (defineImported st n v).moduleDefaultExports = st.moduleDefaultExports := by
  cases v <;> rfl

theorem applyImportBindings_defaults (p d : String) (n : List String) (s : InterpState) :
    (applyImportBindings p d n s).moduleDefaultExports = s.moduleDefaultExports := by
  show (List.foldl (fun st p => defineImported st p.1 p.2) s
    (importBindingsAt p d n s)).moduleDefaultExports = s.moduleDefaultExports
  exact foldl_proj_eq (fun st => st.moduleDefaultExports) (fun st p => defineImported st p.1 p.2)
    (fun st b => defineImported_defaults st b.1 b.2) (importBindingsAt p d n s) s

theorem importBindingsAt_congr (p d : String) (n : List String) {s t : InterpState}
    (h1 : t.moduleDefaultExports = s.moduleDefaultExports)
    (h2 : t.moduleExports = s.moduleExports) :
    importBindingsAt p d n t = importBindingsAt p d n s := by
  simp only [importBindingsAt, h1, h2]

/-- The parametric switch-case loop never forgets a loaded module when
neither the evaluator nor the runner does. -/
theorem impMono_runSwitchCases (evalV : Expr → InterpState → Res Value)
    (runStmts : List Stmt → InterpState → Res Unit)
    (hE : ∀ e s, ImpMono s (evalV e s)) (hR : ∀ l s, ImpMono s (runStmts l s)) :
    ∀ (cs : List CaseClause) (d : Value) (m ft : Bool) (s : InterpState),
      ImpMono s (runSwitchCases evalV runStmts d m ft cs s) := by
  intro cs
  induction cs with
  | nil => intro d m ft s; exact impMono_of_files rfl
  | cons c cs ih =>
    intro d m ft s
    simp only [runSwitchCases]
    refine impMono_ite ?_ ?_
    · refine impMono_ite ?_ ?_
      · exact impMono_andThen (hR _ _) fun _ s1 => ih d true true s1
      · exact ih d m ft s
    · refine impMono_andThen (hE _ _) fun v s1 => ?_
      refine impMono_ite ?_ ?_
      · exact impMono_andThen (hR _ _) fun _ s2 => ih d true true s2
      · exact ih d m ft s1


/-- Monotonicity of the run-the-finally-and-continue tail shape of the
try visitor. -/
theorem impMono_finSome {s sf : InterpState} (hle : impLe s sf)
    (f : InterpState → Res Unit) (hf : ∀ t, ImpMono t (f t))
    (mk : InterpState → Res Unit)
    (hmk : ∀ t, (Res.state (mk t)).importedFiles = t.importedFiles) :
    ImpMono s (match f sf with
      | .ok _ s5 => mk s5
      | r2 => r2) := by
  have h2 := hf sf
  cases hf2 : f sf with
  | ok a s5 =>
    rw [hf2] at h2
    exact impMono_ofLe hle (impMono_ofLe h2 (impMono_of_files (hmk s5)))
  | ret v s5 => rw [hf2] at h2; exact impMono_ofLe hle h2
  | brk s5 => rw [hf2] at h2; exact impMono_ofLe hle h2
  | cont s5 => rw [hf2] at h2; exact impMono_ofLe hle h2
  | thrown v s5 => rw [hf2] at h2; exact impMono_ofLe hle h2
  | fatal m s5 => rw [hf2] at h2; exact impMono_ofLe hle h2
  | undef m s5 => rw [hf2] at h2; exact impMono_ofLe hle h2
  | outOfFuel s5 => rw [hf2] at h2; exact impMono_ofLe hle h2

/-- The try visitor never forgets a loaded module when its block, catch
and finally computations do not. -/
theorem impMono_visitTry (runB : InterpState → Res Unit) (cv : String)
    (runCatch runFinally : Option (InterpState → Res Unit))
    (hB : ∀ t, ImpMono t (runB t))
    (hC : ∀ c, runCatch = some c → ∀ t, ImpMono t (c t))
    (hF : ∀ f, runFinally = some f → ∀ t, ImpMono t (f t))
    (s : InterpState) : ImpMono s (visitTry runB cv runCatch runFinally s) := by
  have h0 : ImpMono s (runB s) := hB s
  cases runFinally with
  | none =>
    cases hrb : runB s with
    | ok a s1 => rw [hrb] at h0; unfold visitTry; rw [hrb]; exact h0
    | ret v s1 => rw [hrb] at h0; unfold visitTry; rw [hrb]; exact h0
    | brk s1 => rw [hrb] at h0; unfold visitTry; rw [hrb]; exact h0
    | cont s1 => rw [hrb] at h0; unfold visitTry; rw [hrb]; exact h0
    | fatal m s1 => rw [hrb] at h0; unfold visitTry; rw [hrb]; exact h0
    | undef m s1 => rw [hrb] at h0; unfold visitTry; rw [hrb]; exact h0
    | outOfFuel s1 => rw [hrb] at h0; unfold visitTry; rw [hrb]; exact h0
    | thrown v s1 =>
      rw [hrb] at h0
      unfold visitTry
      rw [hrb]
      cases runCatch with
      | none => exact h0
      | some c =>
        have hgen : ∀ sIn : InterpState, impLe s sIn →
            ImpMono s (match c sIn with
              | .ok _ s3 => .ok () { s3 with env := envPopScope s3.env }
              | .undef m3 s3 => .undef m3 s3
              | .outOfFuel s3 => .outOfFuel s3
              | r => r.withState { r.state with env := envPopScope r.state.env }) := by
          intro sIn hleIn
          have h2 := hC c rfl sIn
          cases hcc : c sIn with
          | ok a3 s3 =>
            rw [hcc] at h2
            exact impMono_ofLe hleIn (impMono_ofLe h2 (impMono_of_files rfl))
          | undef m3 s3 => rw [hcc] at h2; exact impMono_ofLe hleIn h2
          | outOfFuel s3 => rw [hcc] at h2; exact impMono_ofLe hleIn h2
          | ret v3 s3 =>
            rw [hcc] at h2
            exact impMono_ofLe hleIn (impMono_ofLe h2
              (impMono_of_files (by rw [Res.state_withState])))
          | brk s3 =>
            rw [hcc] at h2
            exact impMono_ofLe hleIn (impMono_ofLe h2
              (impMono_of_files (by rw [Res.state_withState])))
          | cont s3 =>
            rw [hcc] at h2
            exact impMono_ofLe hleIn (impMono_ofLe h2
              (impMono_of_files (by rw [Res.state_withState])))
          | thrown v3 s3 =>
            rw [hcc] at h2
            exact impMono_ofLe hleIn (impMono_ofLe h2
              (impMono_of_files (by rw [Res.state_withState])))
          | fatal m3 s3 =>
            rw [hcc] at h2
            exact impMono_ofLe hleIn (impMono_ofLe h2
              (impMono_of_files (by rw [Res.state_withState])))
        exact hgen _ (impLe_trans h0 (fun q hq => hq))
  | some f =>
    have hfm : ∀ t, ImpMono t (f t) := hF f rfl
    cases hrb : runB s with
    | ok a s1 =>
      rw [hrb] at h0
      unfold visitTry
      rw [hrb]
      exact impMono_finSome h0 f hfm (fun t => .ok () t) (fun t => rfl)
    | ret v s1 =>
      rw [hrb] at h0
      unfold visitTry
      rw [hrb]
      exact impMono_finSome h0 f hfm (fun t => (Res.ret v s1).withState t)
        (fun t => by rw [Res.state_withState])
    | brk s1 =>
      rw [hrb] at h0
      unfold visitTry
      rw [hrb]
      exact impMono_finSome h0 f hfm (fun t => (Res.brk s1).withState t)
        (fun t => by rw [Res.state_withState])
    | cont s1 =>
      rw [hrb] at h0
      unfold visitTry
      rw [hrb]
      exact impMono_finSome h0 f hfm (fun t => (Res.cont s1).withState t)
        (fun t => by rw [Res.state_withState])
    | fatal m s1 => rw [hrb] at h0; unfold visitTry; rw [hrb]; exact h0
    | undef m s1 => rw [hrb] at h0; unfold visitTry; rw [hrb]; exact h0
    | outOfFuel s1 => rw [hrb] at h0; unfold visitTry; rw [hrb]; exact h0
    | thrown v s1 =>
      rw [hrb] at h0
      unfold visitTry
      rw [hrb]
      cases runCatch with
      | none => exact impMono_finSome h0 f hfm (fun t => .thrown v t) (fun t => rfl)
      | some c =>
        have hgen : ∀ sIn : InterpState, impLe s sIn →
            ImpMono s (match c sIn with
              | .ok _ s3 =>
                (match f { s3 with env := envPopScope s3.env } with
                 | .ok _ s5 => .ok () s5
                 | r => r)
              | .undef m3 s3 => .undef m3 s3
              | .outOfFuel s3 => .outOfFuel s3
              | r =>
                (match f { r.state with env := envPopScope r.state.env } with
                 | .ok _ s5 => r.withState s5
                 | r2 => r2)) := by
          intro sIn hleIn
          have h2 := hC c rfl sIn
          cases hcc : c sIn with
          | ok a3 s3 =>
            rw [hcc] at h2
            exact impMono_finSome ((impLe_trans hleIn (impLe_trans h2 (fun q hq => hq))) :
              impLe s { s3 with env := envPopScope s3.env }) f hfm
              (fun t => .ok () t) (fun t => rfl)
          | undef m3 s3 => rw [hcc] at h2; exact impMono_ofLe hleIn h2
          | outOfFuel s3 => rw [hcc] at h2; exact impMono_ofLe hleIn h2
          | ret v3 s3 =>
            rw [hcc] at h2
            exact impMono_finSome ((impLe_trans hleIn (impLe_trans h2 (fun q hq => hq))) :
              impLe s { s3 with env := envPopScope s3.env }) f hfm
              (fun t => (Res.ret v3 s3).withState t) (fun t => by rw [Res.state_withState])
          | brk s3 =>
            rw [hcc] at h2
            exact impMono_finSome ((impLe_trans hleIn (impLe_trans h2 (fun q hq => hq))) :
              impLe s { s3 with env := envPopScope s3.env }) f hfm
              (fun t => (Res.brk s3).withState t) (fun t => by rw [Res.state_withState])
          | cont s3 =>
            rw [hcc] at h2
            exact impMono_finSome ((impLe_trans hleIn (impLe_trans h2 (fun q hq => hq))) :
              impLe s { s3 with env := envPopScope s3.env }) f hfm
              (fun t => (Res.cont s3).withState t) (fun t => by rw [Res.state_withState])
          | thrown v3 s3 =>
            rw [hcc] at h2
            exact impMono_finSome ((impLe_trans hleIn (impLe_trans h2 (fun q hq => hq))) :
              impLe s { s3 with env := envPopScope s3.env }) f hfm
              (fun t => (Res.thrown v3 s3).withState t) (fun t => by rw [Res.state_withState])
          | fatal m3 s3 =>
            rw [hcc] at h2
            exact impMono_finSome ((impLe_trans hleIn (impLe_trans h2 (fun q hq => hq))) :
              impLe s { s3 with env := envPopScope s3.env }) f hfm
              (fun t => (Res.fatal m3 s3).withState t) (fun t => by rw [Res.state_withState])
        exact hgen _ (impLe_trans h0 (fun q hq => hq))

/-- One-step unfolding of the import-declaration arm of the statement
visitor. -/
theorem execStmt_importDecl_eq (fuel : Nat) (p d : String) (n : List String)
    (s : InterpState) :
    execStmt (fuel + 1) (.importDecl p d n) s =
      (if s.importedFiles.contains p then
        .ok () (applyImportBindings p d n s)
      else
        match lookupStr s.files p with
        | none =>
          .fatal ("Import error (" ++ p ++ "): Could not open import file: " ++ p)
            { s with importedFiles := p :: s.importedFiles }
        | some prog =>
          match execStmts fuel prog
              { s with importedFiles := p :: s.importedFiles, currentModulePath := p } with
          | .ok _ s2 =>
            .ok () (applyImportBindings p d n
              { s2 with currentModulePath := s.currentModulePath })
          | .fatal m s2 => .fatal ("Import error (" ++ p ++ "): " ++ m) s2
          | .ret _ s2 => .fatal ("Import error (" ++ p ++ "): std::exception") s2
          | .brk s2 => .fatal ("Import error (" ++ p ++ "): std::exception") s2
          | .cont s2 => .fatal ("Import error (" ++ p ++ "): std::exception") s2
          | .thrown _ s2 => .fatal ("Import error (" ++ p ++ "): std::exception") s2
          | .undef m s2 => .undef m s2
          | .outOfFuel s2 => .outOfFuel s2) := rfl

/-- No interpreter function ever forgets an already-loaded module: joint
fuel induction over the whole mutual visitor block. -/
theorem impMono_run (fuel : Nat) :
    (∀ e s, ImpMono s (visitExpr fuel e s)) ∧
    (∀ e s, ImpMono s (evalExpr fuel e s)) ∧
    (∀ args s, ImpMono s (evalPrintArgs fuel args s)) ∧
    (∀ args ps s, ImpMono s (bindParams fuel args ps s)) ∧
    (∀ name args s, ImpMono s (visitCall fuel name args s)) ∧
    (∀ st s, ImpMono s (execStmt fuel st s)) ∧
    (∀ sts s, ImpMono s (execStmts fuel sts s)) ∧
    (∀ sts s, ImpMono s (execBlock fuel sts s)) ∧
    (∀ c b s, ImpMono s (whileLoop fuel c b s)) := by
  induction fuel with
  | zero =>
    refine ⟨?_, ?_, ?_, ?_, ?_, ?_, ?_, ?_, ?_⟩ <;> intros <;> exact fun q hq => hq
  | succ fuel ih =>
    obtain ⟨ihVE, ihEE, ihPA, ihBP, ihVC, ihS, ihSs, ihB, ihW⟩ := ih
    have hVE : ∀ e s, ImpMono s (visitExpr (fuel + 1) e s) := by
      intro e s
      cases e with
      | integerLit n => exact impMono_of_files rfl
      | stringLit str => exact impMono_ite (impMono_of_files rfl) (impMono_of_files rfl)
      | booleanLit b => exact impMono_of_files rfl
      | ident name =>
        simp only [visitExpr]
        cases envGet s.env name with
        | none => exact impMono_of_files rfl
        | some var =>
          obtain ⟨vv, vt, vc⟩ := var
          cases vv <;> exact impMono_of_files rfl
      | binary l op r =>
        refine impMono_andThen (ihEE l s) fun lv s1 => ?_
        refine impMono_andThen (ihEE r s1) fun rv s2 => ?_
        cases performBinaryOp lv op rv <;> exact impMono_of_files rfl
      | unary op operand =>
        refine impMono_andThen (ihEE operand s) fun v s1 => ?_
        cases hpu : performUnaryOp op v s1 with
        | ok p =>
          obtain ⟨v2, s2⟩ := p
          simp only [hpu]
          exact impMono_of_files (performUnaryOp_files op v s1 v2 s2 hpu)
        | error m =>
          simp only [hpu]
          exact impMono_of_files rfl
      | assignE name value =>
        refine impMono_andThen (ihEE value s) fun v s1 => ?_
        cases envSet fuel s1.typeRegistry s1.env name v <;> exact impMono_of_files rfl
      | callE name args => exact ihVC name args s
    have hEE : ∀ e s, ImpMono s (evalExpr (fuel + 1) e s) := by
      intro e s
      exact impMono_andThen (ihVE e s) fun result s1 => impMono_of_files rfl
    have hPA : ∀ args s, ImpMono s (evalPrintArgs (fuel + 1) args s) := by
      intro args s
      cases args with
      | nil => exact impMono_of_files rfl
      | cons a rest =>
        refine impMono_andThen (ihEE a s) fun v s1 => ?_
        exact impMono_andThen (ihPA rest s1) fun pieces s2 => impMono_of_files rfl
    have hBP : ∀ args ps s, ImpMono s (bindParams (fuel + 1) args ps s) := by
      intro args ps s
      cases args with
      | nil => exact impMono_of_files rfl
      | cons a as =>
        cases ps with
        | nil => exact impMono_of_files rfl
        | cons p ps =>
          obtain ⟨pn, pt⟩ := p
          refine impMono_andThen (ihEE a s) fun v s1 => ?_
          exact impMono_ofLe (fun q hq => hq) (ihBP as ps
            { s1 with env := envDefine s1.env pn { value := v, type := pt, isConst := false } })
    have hVC : ∀ name args s, ImpMono s (visitCall (fuel + 1) name args s) := by
      intro name args s
      simp only [visitCall]
      refine impMono_ite ?_ ?_
      · exact impMono_andThen (ihPA args s) fun pieces s1 => impMono_of_files rfl
      · split
        · rename_i idx hidx
          split
          · exact impMono_of_files rfl
          · rename_i fd hfd
            refine impMono_ite (impMono_of_files rfl) ?_
            refine impMono_andThen
              (impMono_ofLe (fun q hq => hq) (ihBP args fd.params
                { s with env := envPushScope s.env })) fun a s2 => ?_
            have hb := ihB fd.body s2
            cases hr : execBlock fuel fd.body s2 with
            | ok a3 s3 =>
              rw [hr] at hb
              exact impMono_ofLe hb (impMono_of_files rfl)
            | ret v s3 =>
              rw [hr] at hb
              cases v <;> exact impMono_ofLe hb (impMono_of_files rfl)
            | brk s3 => rw [hr] at hb; exact hb
            | cont s3 => rw [hr] at hb; exact hb
            | thrown v s3 => rw [hr] at hb; exact hb
            | fatal m s3 => rw [hr] at hb; exact hb
            | undef m s3 => rw [hr] at hb; exact hb
            | outOfFuel s3 => rw [hr] at hb; exact hb
        · exact impMono_of_files rfl
    have hSs : ∀ sts s, ImpMono s (execStmts (fuel + 1) sts s) := by
      intro sts s
      cases sts with
      | nil => exact impMono_of_files rfl
      | cons st rest =>
        exact impMono_andThen (ihS st s) fun a s1 => ihSs rest s1
    have hB2 : ∀ sts s, ImpMono s (execBlock (fuel + 1) sts s) := by
      intro sts s
      simp only [execBlock]
      have hb := ihSs sts { s with env := envPushScope s.env }
      cases hr : execStmts fuel sts { s with env := envPushScope s.env } with
      | ok a s1 => rw [hr] at hb; exact fun q hq => hb q hq
      | ret v s1 => rw [hr] at hb; exact fun q hq => hb q hq
      | brk s1 => rw [hr] at hb; exact fun q hq => hb q hq
      | cont s1 => rw [hr] at hb; exact fun q hq => hb q hq
      | thrown v s1 => rw [hr] at hb; exact fun q hq => hb q hq
      | fatal m s1 => rw [hr] at hb; exact fun q hq => hb q hq
      | undef m s1 => rw [hr] at hb; exact fun q hq => hb q hq
      | outOfFuel s1 => rw [hr] at hb; exact fun q hq => hb q hq
    have hW : ∀ c b s, ImpMono s (whileLoop (fuel + 1) c b s) := by
      intro c b s
      simp only [whileLoop]
      refine impMono_andThen (ihEE c s) fun cv s1 => ?_
      refine impMono_ite ?_ (impMono_of_files rfl)
      have hb := ihB b s1
      cases hr : execBlock fuel b s1 with
      | ok a s2 => rw [hr] at hb; exact impMono_ofLe hb (ihW c b s2)
      | brk s2 => rw [hr] at hb; exact hb
      | cont s2 => rw [hr] at hb; exact impMono_ofLe hb (ihW c b s2)
      | ret v s2 => rw [hr] at hb; exact hb
      | thrown v s2 => rw [hr] at hb; exact hb
      | fatal m s2 => rw [hr] at hb; exact hb
      | undef m s2 => rw [hr] at hb; exact hb
      | outOfFuel s2 => rw [hr] at hb; exact hb
    have hS2 : ∀ st s, ImpMono s (execStmt (fuel + 1) st s) := by
      intro st s
      cases st with
      | exprStmt e => exact impMono_andThen (ihEE e s) fun a s1 => impMono_of_files rfl
      | blockStmt stmts => exact ihB stmts s
      | varDecl name type init =>
        cases init with
        | some e =>
          refine impMono_andThen (ihEE e s) fun value s1 => ?_
          exact impMono_ite (impMono_of_files rfl) (impMono_of_files rfl)
        | none => exact impMono_of_files rfl
      | ifStmt cond thenB elseB =>
        refine impMono_andThen (ihEE cond s) fun cv s1 => ?_
        refine impMono_ite (ihB thenB s1) ?_
        cases elseB with
        | some b => exact ihB b s1
        | none => exact impMono_of_files rfl
      | whileStmt cond body =>
        simp only [execStmt]
        refine impMono_ite ?_ (ihW cond body s)
        cases compileAndExecuteWhile fuel s.typeRegistry cond body s.env with
        | some env2 => exact impMono_of_files rfl
        | none => exact ihW cond body s
      | returnStmt value =>
        cases value with
        | none => exact impMono_of_files rfl
        | some e => exact impMono_andThen (ihEE e s) fun v s1 => impMono_of_files rfl
      | throwStmt e => exact impMono_andThen (ihEE e s) fun v s1 => impMono_of_files rfl
      | tryStmt tb cv cb fb =>
        rw [execStmt_tryStmt_eq_visitTry]
        refine impMono_visitTry _ cv _ _ (fun t => ihB tb t) ?_ ?_ s
        · intro c hc
          cases cb with
          | none => exact Option.noConfusion hc
          | some b =>
            injection hc with h
            intro t
            rw [← h]
            exact ihB b t
        · intro f hf
          cases fb with
          | none => exact Option.noConfusion hf
          | some b =>
            injection hf with h
            intro t
            rw [← h]
            exact ihB b t
      | breakStmt => exact impMono_of_files rfl
      | continueStmt => exact impMono_of_files rfl
      | switchStmt disc scs =>
        simp only [execStmt]
        refine impMono_andThen (ihEE disc s) fun d s1 => ?_
        have hm := impMono_runSwitchCases (evalExpr fuel) (execStmts fuel)
          (fun e2 s2 => ihEE e2 s2) (fun l2 s2 => ihSs l2 s2) scs d false false s1
        cases hrs : runSwitchCases (evalExpr fuel) (execStmts fuel) d false false scs s1 with
        | ok a s2 => rw [hrs] at hm; exact hm
        | ret v s2 => rw [hrs] at hm; exact hm
        | brk s2 => rw [hrs] at hm; exact hm
        | cont s2 => rw [hrs] at hm; exact hm
        | thrown v s2 => rw [hrs] at hm; exact hm
        | fatal m s2 => rw [hrs] at hm; exact hm
        | undef m s2 => rw [hrs] at hm; exact hm
        | outOfFuel s2 => rw [hrs] at hm; exact hm
      | funcDecl name params body => exact impMono_of_files rfl
      | importDecl p dflt named =>
        rw [execStmt_importDecl_eq]
        refine impMono_ite ?_ ?_
        · exact impMono_of_files (applyImportBindings_files p dflt named s)
        · split
          · exact fun q hq => List.mem_cons_of_mem _ hq
          · rename_i prog hprog
            have hb := ihSs prog
              { s with importedFiles := p :: s.importedFiles, currentModulePath := p }
            cases hr : execStmts fuel prog
                { s with importedFiles := p :: s.importedFiles, currentModulePath := p } with
            | ok a s2 =>
              rw [hr] at hb
              intro q hq
              show q ∈ (applyImportBindings p dflt named
                { s2 with currentModulePath := s.currentModulePath }).importedFiles
              rw [applyImportBindings_files]
              exact hb q (List.mem_cons_of_mem _ hq)
            | ret v s2 => rw [hr] at hb; exact fun q hq => hb q (List.mem_cons_of_mem _ hq)
            | brk s2 => rw [hr] at hb; exact fun q hq => hb q (List.mem_cons_of_mem _ hq)
            | cont s2 => rw [hr] at hb; exact fun q hq => hb q (List.mem_cons_of_mem _ hq)
            | thrown v s2 => rw [hr] at hb; exact fun q hq => hb q (List.mem_cons_of_mem _ hq)
            | fatal m s2 => rw [hr] at hb; exact fun q hq => hb q (List.mem_cons_of_mem _ hq)
            | undef m s2 => rw [hr] at hb; exact fun q hq => hb q (List.mem_cons_of_mem _ hq)
            | outOfFuel s2 => rw [hr] at hb; exact fun q hq => hb q (List.mem_cons_of_mem _ hq)
      | exportNamed names =>
        simp only [execStmt]
        exact impMono_of_files (foldl_proj_eq (fun st => st.importedFiles) _
          (fun st n2 => by cases envGet st.env n2 <;> rfl) names s)
      | typeDecl name spec => exact impMono_of_files rfl
    exact ⟨hVE, hEE, hPA, hBP, hVC, hS2, hSs, hB2, hW⟩

/-- C7: importing a path records it in the already-loaded set; any
later import of the same path does not run the module again - for every
fuel it returns immediately, only materializing bindings - and it
materializes the same binding list the first import applied, since the
applied bindings touch neither export registry. -/
theorem claim_C7_import_once (fuel : Nat) (p d : String) (n : List String)
    (s s1 : InterpState)
    (h : execStmt (fuel + 1) (.importDecl p d n) s = .ok () s1) :
    s1.importedFiles.contains p = true ∧
    (∀ fuel2, execStmt (fuel2 + 1) (.importDecl p d n) s1 =
      .ok () (applyImportBindings p d n s1)) ∧
    (∃ sMid, s1 = applyImportBindings p d n sMid ∧
      importBindingsAt p d n s1 = importBindingsAt p d n sMid) := by
  rw [execStmt_importDecl_eq] at h
  by_cases hc : s.importedFiles.contains p = true
  · rw [if_pos hc] at h
    injection h with h1 h2
    subst h2
    have hc1 : (applyImportBindings p d n s).importedFiles.contains p = true := by
      rw [applyImportBindings_files]
      exact hc
    refine ⟨hc1, ?_, ⟨s, rfl, importBindingsAt_congr p d n
      (applyImportBindings_defaults p d n s) (applyImportBindings_exports p d n s)⟩⟩
    intro fuel2
    rw [execStmt_importDecl_eq, if_pos hc1]
  · rw [if_neg hc] at h
    split at h
    · exact Res.noConfusion h
    · rename_i prog hlf
      split at h
      · rename_i a s2 hr
        injection h with h1 h2
        subst h2
        have hmem : p ∈ s2.importedFiles := by
          have hb := (impMono_run fuel).2.2.2.2.2.2.1 prog
            { s with importedFiles := p :: s.importedFiles, currentModulePath := p }
          rw [hr] at hb
          exact hb p (List.mem_cons_self p s.importedFiles)
        have hc1 : (applyImportBindings p d n
            { s2 with currentModulePath := s.currentModulePath }).importedFiles.contains p
              = true := by
          rw [applyImportBindings_files]
          exact List.elem_iff.mpr hmem
        refine ⟨hc1, ?_, ⟨{ s2 with currentModulePath := s.currentModulePath }, rfl,
          importBindingsAt_congr p d n
            (applyImportBindings_defaults p d n { s2 with currentModulePath := s.currentModulePath })
            (applyImportBindings_exports p d n { s2 with currentModulePath := s.currentModulePath })⟩⟩
        intro fuel2
        rw [execStmt_importDecl_eq, if_pos hc1]
      · exact Res.noConfusion h
      · exact Res.noConfusion h
      · exact Res.noConfusion h
      · exact Res.noConfusion h
      · exact Res.noConfusion h
      · exact Res.noConfusion h
      · exact Res.noConfusion h

/-- Witness for C7: the first import of m.axo from the initial state
succeeds and records the path; by the claim theorem a second import, at
any fuel, returns immediately with only the binding application. -/
theorem claim_C7_import_once_witness :
    axoImpS1.importedFiles.contains "m.axo" = true ∧
    execStmt 4 (.importDecl "m.axo" "" ["a"]) axoImpS1 =
      .ok () (applyImportBindings "m.axo" "" ["a"] axoImpS1) :=
  have hrun : execStmt 10 (.importDecl "m.axo" "" ["a"]) (initState axoFiles) =
      .ok () axoImpS1 := rfl
  ⟨(claim_C7_import_once 9 "m.axo" "" ["a"] (initState axoFiles) axoImpS1 hrun).1,
   (claim_C7_import_once 9 "m.axo" "" ["a"] (initState axoFiles) axoImpS1 hrun).2.1 3⟩

end Axo
